import Mathlib

/-!
Verification of the desired-state reconciliation logic of the salt-jss
repository (states `jamf`, `jamf_org`, `jamf_proxy_policy`, and the
`jamf_scripts` execution module), over a shallow embedding.

The XML element trees used by the Python code (`xml.etree.ElementTree`
elements, as wrapped by the python-jss object classes) are embedded as an
inductive tree of tagged nodes with optional text.  Python dictionaries of
change records are embedded as insertion-ordered association lists, Python
heterogeneous values (`None`, `str`, `bool`, `list`, `dict`) as `PyVal`,
and Python exceptions as an `Except PyError` monad.  Network interactions
performed through the python-jss client (object fetch, object save) and
through the salt `__salt__` dispatcher are recorded as an event trace.
-/

/-- Python values as they appear in the change dictionaries of these states. -/
inductive PyVal where
  | pnone
  | pstr (s : String)
  | pbool (b : Bool)
  | plist (xs : List PyVal)
  | pdict (d : List (String × PyVal))

/-- An XML element: tag, optional inner text, list of direct children.
Attributes are never used by the embedded code and are omitted. -/
inductive XmlNode where
  | mk (tag : String) (text : Option String) (children : List XmlNode)

def XmlNode.tag : XmlNode → String
  | .mk t _ _ => t

def XmlNode.text : XmlNode → Option String
  | .mk _ tx _ => tx

def XmlNode.children : XmlNode → List XmlNode
  | .mk _ _ cs => cs

/-- `ElementTree.find` with a single tag: first direct child carrying the tag. -/
def XmlNode.findC (n : XmlNode) (t : String) : Option XmlNode :=
  n.children.find? (fun c => c.tag == t)

/-- `ElementTree.find` over a `/`-separated path, resolved as a first-match
chain.  This coincides with ElementTree's document-order path search whenever
every proper prefix of the path resolves to a unique element, which holds for
every tree constructed or fetched in the embedded code. -/
def XmlNode.findP : XmlNode → List String → Option XmlNode
  | n, [] => some n
  | n, t :: ts =>
    match n.findC t with
    | none => none
    | some c => c.findP ts

/-- `ElementTree.findtext`: `None` when the element is missing, the element's
text (with `None` text read back as the empty string) when present. -/
def XmlNode.findtextP (n : XmlNode) (p : List String) : Option String :=
  match n.findP p with
  | none => none
  | some el => some (el.text.getD "")

/-- Rewrite the first child carrying tag `t` by `f`, in place. -/
def modifyFirst (t : String) (f : XmlNode → XmlNode) : List XmlNode → List XmlNode
  | [] => []
  | c :: rest => if c.tag == t then f c :: rest else c :: modifyFirst t f rest

/-- In-place mutation of the element reached by a first-match path; identity
when the path does not resolve (the embedded code always checks existence,
raising, before mutating). -/
def XmlNode.modifyP : XmlNode → List String → (XmlNode → XmlNode) → XmlNode
  | n, [], f => f n
  | .mk tg tx cs, t :: ts, f => .mk tg tx (modifyFirst t (fun c => c.modifyP ts f) cs)

/-- Python `el.text = v` on the element reached by `p`. -/
def XmlNode.setTextP (n : XmlNode) (p : List String) (v : Option String) : XmlNode :=
  n.modifyP p (fun m => .mk m.tag v m.children)

/-- Python `ElementTree.SubElement(parent_at_p, t)` (optionally followed by an
immediate `.text` assignment on the fresh element): append a new child. -/
def XmlNode.appendChildP (n : XmlNode) (p : List String) (t : String) (tx : Option String) : XmlNode :=
  n.modifyP p (fun m => .mk m.tag m.text (m.children ++ [.mk t tx []]))

/-- `ElementTree.findall` of the children with tag `t` of the element at `p`. -/
def XmlNode.findallP (n : XmlNode) (p : List String) (t : String) : List XmlNode :=
  match n.findP p with
  | none => []
  | some el => el.children.filter (fun c => c.tag == t)

/-- The Python exceptions than can cross the embedded functions. -/
inductive PyError where
  | typeError (msg : String)
  | attributeError (msg : String)
  | saltInvocationError (msg : String)
  | getError (msg : String)
  | postError (msg : String)
  | commandExecutionError (msg : String)
  deriving DecidableEq, Repr

/-- python-jss attribute-style navigation (`obj.general`): find the first
direct child with the tag, raise `AttributeError` when absent. -/
def XmlNode.attr (n : XmlNode) (t : String) : Except PyError XmlNode :=
  match n.findC t with
  | some c => .ok c
  | none => .error (.attributeError t)

/-- A Python dict of change records: insertion-ordered association list. -/
abbrev PyDict := List (String × PyVal)

/-- Python `d[k] = v`: replace in place when the key exists, else append. -/
def dictSet (d : PyDict) (k : String) (v : PyVal) : PyDict :=
  match d with
  | [] => [(k, v)]
  | (k0, v0) :: rest => if k0 = k then (k, v) :: rest else (k0, v0) :: dictSet rest k v

/-- Python `d.get(k)` / `d[k]` lookup. -/
def dictGet (d : PyDict) (k : String) : Option PyVal :=
  match d with
  | [] => none
  | (k0, v0) :: rest => if k0 = k then some v0 else dictGet rest k

/-- Inject an optional element text into a change-record value. -/
def pyOfOptStr : Option String → PyVal
  | none => .pnone
  | some s => .pstr s

/-- Python `str()` restricted to the values the embedded code applies it to
(booleans and strings; the list and dict branches are unreachable there). -/
def pyStr : PyVal → String
  | .pnone => "None"
  | .pstr s => s
  | .pbool b => if b then "True" else "False"
  | .plist _ => "[python list]"
  | .pdict _ => "[python dict]"

/-- The `changes` dictionary: `old` and `new` mappings from field name to value. -/
structure Changes where
  old : PyDict
  new : PyDict

/-- The salt state return structure.  `ret['changes']` starts as the empty
dict (modelled `none`) and is assigned a record on some paths. -/
structure StateRet where
  name : String
  result : Option Bool
  changes : Option Changes
  comment : String

/-- Observable interactions with the remote-server client and salt dispatch. -/
inductive Event where
  | fetch (objType name : String)
  | save (objType name : String)
  | saltCall (fn : String)
  deriving DecidableEq, Repr

/-- Result of one reconciliation run: the state return, the interaction trace,
and the final local representation. -/
structure RunOut where
  ret : StateRet
  trace : List Event
  obj : XmlNode

/-- src/_states/jamf_org.py `_ensure_xml_str` (also duplicated in
src/_states/jamf.py and src/_states/jamf_proxy_policy.py): ensure the tag
exists under `parent` and carries `desired` as its text; returns the
`(old, new)` difference pair, `(None, None)` on no change. -/
def ensure_xml_str (parent : XmlNode) (tagName : String) (desired : Option String) :
    (Option String × Option String) × XmlNode :=
  let st :=
    match parent.findC tagName with
    | some c => (parent, c)
    | none => (parent.appendChildP [] tagName none, XmlNode.mk tagName none [])
  let oldValue := st.2.text
  if oldValue ≠ desired then
    ((oldValue, desired), st.1.setTextP [tagName] desired)
  else
    ((none, none), st.1)

/-- src/_states/jamf_org.py `_ensure_xml_bool` (also in
src/_states/jamf_proxy_policy.py): ensure the element's inner text matches the
desired boolean; `None` desired value is an explicit no-op. -/
def ensure_xml_bool (element : XmlNode) (desired : Option Bool) :
    (Option Bool × Option Bool) × XmlNode :=
  match desired with
  | none => ((none, none), element)
  | some d =>
    if (element.text == some "true") != d then
      ((some (element.text == some "true"), some d),
        XmlNode.mk element.tag (some (if d then "true" else "false")) element.children)
    else
      ((none, none), element)

mutual

/-- Python `==` on embedded values.  Cross-type comparisons (e.g. a boolean
against an element-text string) are unequal, exactly as in Python.  The
dict case is order-sensitive here; the embedded code never compares
dict-valued entries, so the difference is unobservable. -/
def pyEq : PyVal → PyVal → Bool
  | .pnone, .pnone => true
  | .pstr a, .pstr b => a == b
  | .pbool a, .pbool b => a == b
  | .plist a, .plist b => pyEqList a b
  | .pdict a, .pdict b => pyEqDict a b
  | _, _ => false

def pyEqList : List PyVal → List PyVal → Bool
  | [], [] => true
  | a :: as, b :: bs => pyEq a b && pyEqList as bs
  | _, _ => false

def pyEqDict : List (String × PyVal) → List (String × PyVal) → Bool
  | [], [] => true
  | (k1, v1) :: as, (k2, v2) :: bs => k1 == k2 && pyEq v1 v2 && pyEqDict as bs
  | _, _ => false

end

/-- Python subscript on an optional list argument (`ip_range[0]` and the like):
subscripting `None` raises `TypeError`. -/
def pySubscript (xs : Option (List String)) (i : Nat) : Except PyError String :=
  match xs with
  | none => .error (.typeError "NoneType object is not subscriptable")
  | some l =>
    match l.get? i with
    | some v => .ok v
    | none => .error (.typeError "list index out of range")

/-- The remote JAMF server as seen through the python-jss client: each fetch
either yields the stored representation or signals not-found (`jss.GetError`),
and each save either succeeds or raises `jss.PostError` with a message. -/
structure Server where
  policies : String → Option XmlNode
  networkSegments : String → Option XmlNode
  distributionPoints : String → Option XmlNode
  categories : String → Option XmlNode
  computerGroups : String → Option XmlNode
  postErr : String → String → Option String

/-- Modelled from the spec: the python-jss blank-object constructors
(`jss.NetworkSegment(j, name)`, `jss.Category(j, name)`, ...) live in the
third-party client library, outside this repository.  Per the locator
contract they return a freshly constructed, minimally-initialized blank
representation carrying the requested name. -/
def newBlankObject (objTag nameText : String) : XmlNode :=
  .mk objTag none [.mk "name" (some nameText) []]

/-- src/_states/jamf_org.py `network_segment` lines 244-262 and
`distribution_point` lines 326-344 (the two blocks are textually identical in
the source): aggregate the change record, and either report a pending dry-run
result, commit and report success, or report the save failure; when no change
was recorded, report that the object is already in the desired state without
saving. -/
def commitReport (objType name : String) (chOld chNew : PyDict) (server : Server)
    (optsTest : Bool) (trace0 : List Event) : StateRet × List Event :=
  let ret : StateRet := ⟨name, some false, none, ""⟩
  if chNew.length > 0 then
    let ret := { ret with changes := some ⟨chOld, chNew⟩ }
    if optsTest then
      ({ ret with result := none, comment := name ++ " would be modified" }, trace0)
    else
      let trace := trace0 ++ [.save objType name]
      match server.postErr objType name with
      | none =>
        ({ ret with result := some true, comment := name ++ " was updated" }, trace)
      | some m =>
        ({ ret with
            result := some false
            comment := "Unable to save " ++ name ++ ", reason: " ++ m }, trace)
  else
    ({ ret with result := some true, comment := name ++ " is already in the desired state" }, trace0)

/-- src/_states/jamf_org.py `network_segment` up to the change-report block:
validate `ip_range`, locate the segment through the `jamf.network_segment`
execution module (which returns `None` on the not-found signal), construct a
blank object when absent, and reconcile the three fields.  Returns the two
change mappings and the mutated representation. -/
def network_segment_core (name : String) (ip_range : Option (List String))
    (distribution_point : Option String) (server : Server) :
    Except PyError (PyDict × PyDict × XmlNode) := do
  let mut chOld : PyDict := []
  let mut chNew : PyDict := []
  if ip_range ≠ none ∧ (ip_range.getD []).length ≠ 2 then
    throw (.saltInvocationError "Argument ip_range must be a list of two ipv4 addresses (start, end)")
  let mut segment : XmlNode :=
    match server.networkSegments name with
    | some s => s
    | none => newBlankObject "network_segment" name
  let r0 ← pySubscript ip_range 0
  if some r0 ≠ segment.findtextP ["starting_address"] then
    match segment.findC "starting_address" with
    | some el => do
      chOld := dictSet chOld "starting_address" (pyOfOptStr el.text)
      segment := segment.setTextP ["starting_address"] (some r0)
    | none => do
      segment := segment.appendChildP [] "starting_address" (some r0)
    chNew := dictSet chNew "starting_address" (.pstr r0)
  let r1 ← pySubscript ip_range 1
  if some r1 ≠ segment.findtextP ["ending_address"] then
    match segment.findC "ending_address" with
    | some el => do
      chOld := dictSet chOld "ending_address" (pyOfOptStr el.text)
      segment := segment.setTextP ["ending_address"] (some r1)
    | none => do
      segment := segment.appendChildP [] "ending_address" (some r1)
    chNew := dictSet chNew "ending_address" (.pstr r1)
  if distribution_point ≠ segment.findtextP ["distribution_point"] then
    match segment.findC "distribution_point" with
    | some el => do
      chOld := dictSet chOld "distribution_point" (pyOfOptStr el.text)
      segment := segment.setTextP ["distribution_point"] distribution_point
    | none => do
      segment := segment.appendChildP [] "distribution_point" distribution_point
    chNew := dictSet chNew "distribution_point" (pyOfOptStr distribution_point)
  return (chOld, chNew, segment)

/-- src/_states/jamf_org.py `network_segment`: ensure the named network
segment is present with the given address range and distribution point.
`optsTest` is the salt dry-run flag `__opts__['test']`. -/
def network_segment (name : String) (ip_range : Option (List String))
    (distribution_point : Option String) (server : Server) (optsTest : Bool) :
    Except PyError RunOut := do
  let trace0 : List Event := [.saltCall "jamf.network_segment", .fetch "network_segment" name]
  let (chOld, chNew, segment) ← network_segment_core name ip_range distribution_point server
  let (ret, trace) := commitReport "network_segment" name chOld chNew server optsTest trace0
  return ⟨ret, trace, segment⟩

/-- src/_states/jamf_org.py `distribution_point` up to the change-report
block: validate `connection_type`, locate or construct the object, reconcile
every field through `_ensure_xml_str`, writing both halves of each result into
the `old`/`new` change dictionaries unconditionally, exactly as in the
source. -/
def distribution_point_core (name : String)
    (ip_address : Option String) (is_master : Option Bool)
    (connection_type : Option String) (share_name : Option String)
    (read_only_username : Option String) (read_only_password : Option String)
    (read_write_username : Option String) (read_write_password : Option String)
    (server : Server) : Except PyError (PyDict × PyDict × XmlNode) := do
  let mut chOld : PyDict := []
  let mut chNew : PyDict := []
  if connection_type ≠ some "SMB" ∧ connection_type ≠ some "AFP" then
    throw (.saltInvocationError "Specified connection_type is not valid, must be one of: SMB, AFP")
  let mut dp : XmlNode :=
    match server.distributionPoints name with
    | some d => d
    | none => newBlankObject "distribution_point" name
  let e0 := ensure_xml_str dp "ip_address" ip_address
  dp := e0.2
  chOld := dictSet chOld "ip_address" (pyOfOptStr e0.1.1)
  chNew := dictSet chNew "ip_address" (pyOfOptStr e0.1.2)
  if is_master ≠ none then
    if (dp.findC "is_master").isNone then
      dp := dp.appendChildP [] "is_master" none
    match dp.findC "is_master" with
    | none => throw (.attributeError "is_master")
    | some el => do
      if pyEq (.pbool (is_master.getD false)) (pyOfOptStr el.text) = false then
        chOld := dictSet chOld "is_master" (pyOfOptStr el.text)
        chNew := dictSet chNew "is_master" (.pstr (pyStr (.pbool (is_master.getD false))))
        dp := dp.setTextP ["is_master"] (some (pyStr (.pbool (is_master.getD false))))
  let e1 := ensure_xml_str dp "connection_type" connection_type
  dp := e1.2
  chOld := dictSet chOld "connection_type" (pyOfOptStr e1.1.1)
  chNew := dictSet chNew "connection_type" (pyOfOptStr e1.1.2)
  let e2 := ensure_xml_str dp "share_name" share_name
  dp := e2.2
  chOld := dictSet chOld "share_name" (pyOfOptStr e2.1.1)
  chNew := dictSet chNew "share_name" (pyOfOptStr e2.1.2)
  let e3 := ensure_xml_str dp "read_only_username" read_only_username
  dp := e3.2
  chOld := dictSet chOld "read_only_username" (pyOfOptStr e3.1.1)
  chNew := dictSet chNew "read_only_username" (pyOfOptStr e3.1.2)
  let e4 := ensure_xml_str dp "read_only_password" read_only_password
  dp := e4.2
  chOld := dictSet chOld "read_only_password" (pyOfOptStr e4.1.1)
  chNew := dictSet chNew "read_only_password" (pyOfOptStr e4.1.2)
  let e5 := ensure_xml_str dp "read_write_username" read_write_username
  dp := e5.2
  chOld := dictSet chOld "read_write_username" (pyOfOptStr e5.1.1)
  chNew := dictSet chNew "read_write_username" (pyOfOptStr e5.1.2)
  let e6 := ensure_xml_str dp "read_write_password" read_write_password
  dp := e6.2
  chOld := dictSet chOld "read_write_password" (pyOfOptStr e6.1.1)
  chNew := dictSet chNew "read_write_password" (pyOfOptStr e6.1.2)
  return (chOld, chNew, dp)

/-- src/_states/jamf_org.py `distribution_point`: ensure the named
distribution point is present. -/
def distribution_point_state (name : String)
    (ip_address : Option String) (is_master : Option Bool)
    (connection_type : Option String) (share_name : Option String)
    (read_only_username : Option String) (read_only_password : Option String)
    (read_write_username : Option String) (read_write_password : Option String)
    (server : Server) (optsTest : Bool) : Except PyError RunOut := do
  let trace0 : List Event := [.fetch "distribution_point" name]
  let (chOld, chNew, dp) ← distribution_point_core name ip_address is_master connection_type
    share_name read_only_username read_only_password read_write_username read_write_password server
  let (ret, trace) := commitReport "distribution_point" name chOld chNew server optsTest trace0
  return ⟨ret, trace, dp⟩

/-- src/_states/jamf_org.py `category`: ensure the category is present with
the given self-service priority.  The save calls here are not guarded by the
dry-run flag and `jss.PostError` is left uncaught. -/
def category_state (name : String) (priority : PyVal) (server : Server) :
    Except PyError RunOut := do
  let mut chOld : PyDict := []
  let mut chNew : PyDict := []
  let mut trace : List Event := [.fetch "category" name]
  let mut ret : StateRet := ⟨name, some false, none, ""⟩
  let mut category : XmlNode := newBlankObject "category" name
  match server.categories name with
  | some cat => do
    category := cat
    let priorityEl ← category.attr "priority"
    if priorityEl.text ≠ some (pyStr priority) then
      chOld := dictSet chOld "priority" (pyOfOptStr priorityEl.text)
      category := category.setTextP ["priority"] (some (pyStr priority))
      chNew := dictSet chNew "priority" (.pstr (pyStr priority))
      trace := trace ++ [.save "category" name]
      match server.postErr "category" name with
      | some m => throw (.postError m)
      | none => ret := { ret with result := some true }
    else
      ret := { ret with comment := "No changes required", result := some true }
  | none => do
    category := category.appendChildP [] "priority" (some (pyStr priority))
    chNew := dictSet chNew "name" (.pstr name)
    chNew := dictSet chNew "priority" (.pstr (pyStr priority))
    trace := trace ++ [.save "category" name]
    match server.postErr "category" name with
    | some m => throw (.postError m)
    | none => ret := { ret with result := some true }
  if chNew.length > 0 then
    ret := { ret with changes := some ⟨chOld, chNew⟩ }
  return ⟨ret, trace, category⟩

/-- The valid policy frequencies (src/_states/jamf.py `policy`). -/
def policy_frequencies : List String :=
  ["Once per computer", "Once per user per computer", "Once per user", "Once every day",
   "Once every week", "Once every month", "Ongoing"]

/-- The reserved trigger names (src/_states/jamf.py `policy`,
src/_states/jamf_proxy_policy.py `_policy_triggers`). -/
def policy_reserved_triggers : List String :=
  ["startup", "login", "logout", "network_state_changed", "enrollment_complete", "checkin"]

/-- Iteration order of a Python set is unspecified; the embedding fixes the
canonical sorted order.  No claim depends on this choice. -/
def pySetList (s : Finset String) : List String := s.sort (· ≤ ·)

/-- Modelled from the spec: `jss.Policy(j, name)` constructs its blank
representation inside the third-party python-jss library (outside this
repository); per the locator contract of the spec it is a minimally
initialized template with the required structural placeholders. -/
def newBlankPolicy (name : String) : XmlNode :=
  .mk "policy" none
    [.mk "general" none
      [.mk "name" (some name) [],
       .mk "enabled" (some "false") [],
       .mk "frequency" (some "Once per computer") [],
       .mk "category" none [.mk "name" none []]],
     .mk "scope" none [.mk "all_computers" (some "false") [], .mk "computer_groups" none []],
     .mk "self_service" none [.mk "use_for_self_service" (some "false") []],
     .mk "package_configuration" none [.mk "packages" none []],
     .mk "maintenance" none [.mk "recon" (some "false") []],
     .mk "scripts" none []]

/-- src/_states/jamf.py `policy`, "Check Basics" section: the `enabled` flag is
compared against the lowercase literal `'true'` but written back with Python
`str()` (capitalized), and the frequency text is compared and written as-is. -/
def policyBasics (pol0 : XmlNode) (enabled : Bool) (frequency : String)
    (chOld0 chNew0 : PyDict) : Except PyError (XmlNode × PyDict × PyDict) := do
  let mut pol := pol0
  let mut chOld := chOld0
  let mut chNew := chNew0
  let general ← pol.attr "general"
  let enabledEl ← general.attr "enabled"
  if enabled ≠ (enabledEl.text == some "true") then
    chOld := dictSet chOld "enabled" (.pbool (enabledEl.text == some "true"))
    pol := pol.setTextP ["general", "enabled"] (some (pyStr (.pbool enabled)))
    chNew := dictSet chNew "enabled" (.pbool enabled)
  let general1 ← pol.attr "general"
  let frequencyEl ← general1.attr "frequency"
  if some frequency ≠ frequencyEl.text then
    chOld := dictSet chOld "frequency" (pyOfOptStr frequencyEl.text)
    pol := pol.setTextP ["general", "frequency"] (some frequency)
    chNew := dictSet chNew "frequency" (.pstr frequency)
  return (pol, chOld, chNew)

/-- src/_states/jamf.py `policy`, "Check Site" section.  Note that the source
reconciles the desired site name against `general/name`, exactly as written. -/
def policySite (pol0 : XmlNode) (site : Option String) (chOld0 chNew0 : PyDict) :
    Except PyError (XmlNode × PyDict × PyDict) := do
  match site with
  | none => return (pol0, chOld0, chNew0)
  | some s => do
    let mut pol := pol0
    let mut chOld := chOld0
    let mut chNew := chNew0
    if (pol.findP ["general", "site"]).isNone then
      let _ ← pol.attr "general"
      pol := pol.appendChildP ["general"] "site" none
    let general ← pol.attr "general"
    let e := ensure_xml_str general "name" (some s)
    pol := pol.modifyP ["general"] (fun _ => e.2)
    if e.1.2 ≠ none then
      chOld := dictSet chOld "site" (pyOfOptStr e.1.1)
      chNew := dictSet chNew "site" (pyOfOptStr e.1.2)
    return (pol, chOld, chNew)

/-- src/_states/jamf.py `policy`, "Check Category" section. -/
def policyCategory (pol0 : XmlNode) (category : Option String) (chOld0 chNew0 : PyDict) :
    Except PyError (XmlNode × PyDict × PyDict) := do
  match category with
  | none => return (pol0, chOld0, chNew0)
  | some c => do
    let mut chOld := chOld0
    let mut chNew := chNew0
    let general ← pol0.attr "general"
    let catEl ← general.attr "category"
    let e := ensure_xml_str catEl "name" (some c)
    let pol := pol0.modifyP ["general", "category"] (fun _ => e.2)
    if e.1.2 ≠ none then
      chOld := dictSet chOld "category" (pyOfOptStr e.1.1)
      chNew := dictSet chNew "category" (pyOfOptStr e.1.2)
    return (pol, chOld, chNew)

/-- src/_states/jamf.py `policy`, current-trigger extraction: reserved triggers
whose flag element reads `'true'`, plus the text of the single custom slot
`general/trigger_other` when that element exists (its text read back through
`findtext`, so a missing text contributes the empty string). -/
def policyOldTriggers (pol : XmlNode) : Finset String :=
  let reserved := policy_reserved_triggers.foldl (fun acc rtrig =>
    match pol.findP ["general", "trigger_" ++ rtrig] with
    | some el => if el.text == some "true" then acc ∪ {rtrig} else acc
    | none => acc) ∅
  if (pol.findP ["general", "trigger_other"]).isSome then
    reserved ∪ {(pol.findtextP ["general", "trigger_other"]).getD ""}
  else
    reserved

/-- `triggers_add = set(triggers) - old_triggers` (src/_states/jamf.py line 556,
src/_states/jamf_proxy_policy.py line 168). -/
def triggersAdd (triggers : List String) (old_triggers : Finset String) : Finset String :=
  triggers.toFinset \ old_triggers

/-- `triggers_remove = old_triggers - set(triggers)` (src/_states/jamf.py line
554, src/_states/jamf_proxy_policy.py line 166). -/
def triggersRemove (triggers : List String) (old_triggers : Finset String) : Finset String :=
  old_triggers \ triggers.toFinset

/-- One iteration of the trigger-removal loop (identical in src/_states/jamf.py
and src/_states/jamf_proxy_policy.py): reserved triggers get their flag set to
`'false'`; a custom trigger clears the text of `general/trigger_other`. -/
def applyRemoveTrigger (pol : XmlNode) (t : String) : Except PyError XmlNode := do
  if t ∈ policy_reserved_triggers then
    match pol.findP ["general", "trigger_" ++ t] with
    | some el =>
      if el.text == some "true" then
        return pol.setTextP ["general", "trigger_" ++ t] (some "false")
      else
        return pol
    | none => return pol
  else
    match pol.findP ["general", "trigger_other"] with
    | some _ => return pol.setTextP ["general", "trigger_other"] none
    | none => throw (.attributeError "text")

/-- One iteration of the trigger-addition loop (identical in src/_states/jamf.py
and src/_states/jamf_proxy_policy.py): reserved triggers get their flag set to
`'true'` only when the flag element exists reading `'false'`; a custom trigger
is written into the single `general/trigger_other` slot, created under
`general` when no top-level `trigger_other` element exists. -/
def applyAddTrigger (pol0 : XmlNode) (t : String) : Except PyError XmlNode := do
  if t ∈ policy_reserved_triggers then
    match pol0.findP ["general", "trigger_" ++ t] with
    | some el =>
      if el.text == some "false" then
        return pol0.setTextP ["general", "trigger_" ++ t] (some "true")
      else
        return pol0
    | none => return pol0
  else do
    let mut pol := pol0
    if (pol.findC "trigger_other").isNone then
      let _ ← pol.attr "general"
      pol := pol.appendChildP ["general"] "trigger_other" none
    match pol.findP ["general", "trigger_other"] with
    | some _ => return pol.setTextP ["general", "trigger_other"] (some t)
    | none => throw (.attributeError "text")

/-- src/_states/jamf.py `policy`, "Check Triggers" section. -/
def policyTriggers (pol0 : XmlNode) (triggers : Option (List String)) (chOld0 chNew0 : PyDict) :
    Except PyError (XmlNode × PyDict × PyDict) := do
  match triggers with
  | none => return (pol0, chOld0, chNew0)
  | some trigs => do
    let old_triggers := policyOldTriggers pol0
    let triggers_remove := triggersRemove trigs old_triggers
    let triggers_add := triggersAdd trigs old_triggers
    if triggers_add.card > 0 ∨ triggers_remove.card > 0 then
      let chOld := dictSet chOld0 "triggers" (.plist ((pySetList old_triggers).map .pstr))
      let chNew := dictSet chNew0 "triggers" (.plist (trigs.map .pstr))
      let pol1 ← (pySetList triggers_remove).foldlM applyRemoveTrigger pol0
      let pol2 ← (pySetList triggers_add).foldlM applyAddTrigger pol1
      return (pol2, chOld, chNew)
    else
      return (pol0, chOld0, chNew0)

/-- Python `changes[k1][k2] = v` where `changes[k1]` holds a nested dict. -/
def dictSetNested (d : PyDict) (k1 k2 : String) (v : PyVal) : PyDict :=
  match dictGet d k1 with
  | some (.pdict inner) => dictSet d k1 (.pdict (dictSet inner k2 v))
  | _ => dictSet d k1 (.pdict [(k2, v)])

/-- Python `changes[k1][k2].append(v)` where `changes[k1][k2]` holds a list. -/
def dictAppendNested (d : PyDict) (k1 k2 : String) (v : PyVal) : PyDict :=
  match dictGet d k1 with
  | some (.pdict inner) =>
    match dictGet inner k2 with
    | some (.plist xs) => dictSet d k1 (.pdict (dictSet inner k2 (.plist (xs ++ [v]))))
    | _ => d
  | _ => d

/-- Modelled from the spec: `Policy.add_object_to_scope` lives in the
third-party python-jss library; per the spec's list-to-flag contract it adds a
reference element (id and name) for the resolved group under
`scope/computer_groups`. -/
def addComputerGroupToScope (pol : XmlNode) (cg : XmlNode) : XmlNode :=
  pol.modifyP ["scope", "computer_groups"]
    (fun m => .mk m.tag m.text (m.children ++ [.mk "computer_group" none
      [.mk "id" ((cg.findC "id").bind XmlNode.text) [],
       .mk "name" ((cg.findC "name").bind XmlNode.text) []]]))

/-- Python set difference of optional strings realized on lists: the members
of `xs` not in `ys`, first occurrence only.  Iteration order over a Python set
is unspecified; here it is fixed to first-occurrence order.  No claim depends
on this choice. -/
def pySetDiffO (xs ys : List (Option String)) : List (Option String) :=
  xs.dedup.filter (fun x => x ∉ ys)

/-- src/_states/jamf.py `policy`, "Check Scope" section.  Whenever a scope is
supplied, the keys `scope` are written into both change mappings up front
(with empty nested dicts), exactly as in the source. -/
def policyScope (pol0 : XmlNode) (scope : Option (List (List (String × PyVal))))
    (chOld0 chNew0 : PyDict) (server : Server) (trace0 : List Event) :
    Except PyError (XmlNode × PyDict × PyDict × List Event) := do
  match scope with
  | none => return (pol0, chOld0, chNew0, trace0)
  | some items => do
    let mut chOld := dictSet chOld0 "scope" (.pdict [])
    let mut chNew := dictSet chNew0 "scope" (.pdict [])
    let mut pol := pol0
    let mut trace := trace0
    for item in items do
      for kv in item do
        if kv.1 = "all_computers" then
          match pol.findP ["scope", "all_computers"] with
          | some oldEl => do
            let all_computers := oldEl.text == some "true"
            if pyEq kv.2 (.pbool all_computers) = false then
              chOld := dictSetNested chOld "scope" "all_computers" (.pbool all_computers)
              pol := pol.setTextP ["scope", "all_computers"] (some (pyStr kv.2))
              chNew := dictSetNested chNew "scope" "all_computers" kv.2
          | none => pure ()
        else if kv.1 = "computer_groups" then do
          let cgEls := pol.findallP ["scope", "computer_groups"] "computer_group"
          let mut existingNames : List (Option String) := []
          for cg in cgEls do
            let _ ← cg.attr "id"
            let nameEl ← cg.attr "name"
            existingNames := existingNames ++ [nameEl.text]
          chOld := dictSetNested chOld "scope" "computer_groups"
            (.plist (existingNames.map pyOfOptStr))
          chNew := dictSetNested chNew "scope" "computer_groups" (.plist [])
          let desired : List (Option String) :=
            match kv.2 with
            | .plist xs => xs.filterMap (fun v => match v with | .pstr s => some (some s) | _ => none)
            | _ => []
          let to_add := pySetDiffO desired existingNames
          let _to_remove := pySetDiffO existingNames desired
          for cgo in to_add do
            let cgName := cgo.getD ""
            trace := trace ++ [.fetch "computer_group" cgName]
            match server.computerGroups cgName with
            | some cgObj => do
              pol := addComputerGroupToScope pol cgObj
              chNew := dictAppendNested chNew "scope" "computer_groups" (.pstr cgName)
            | none =>
              throw (.saltInvocationError ("Invalid computer group " ++ cgName ++ " specified in policy"))
          -- the removal loop of the source finds each stale reference and
          -- then does nothing (`pass`): a silent no-op, embedded as such
          pure ()
        else
          pure ()
    return (pol, chOld, chNew, trace)

/-- src/_states/jamf.py `policy`, "Packages" section: the install branch only
reads the existing package names (attribute navigation can raise) and computes
the would-be additions for a debug print; it records no change and performs no
mutation, exactly as in the source. -/
def policyPackages (pol : XmlNode) (packages : Option (List (List (String × List String)))) :
    Except PyError Unit := do
  match packages with
  | none => return ()
  | some items => do
    for item in items do
      for kv in item do
        if kv.1 = "install" then do
          let pc ← pol.attr "package_configuration"
          let pkgs ← pc.attr "packages"
          let package_tags := pkgs.children.filter (fun c => c.tag == "package")
          let mut existing : Finset (Option String) := ∅
          for p in package_tags do
            let nameEl ← p.attr "name"
            existing := existing ∪ {nameEl.text}
          let _pkgs_install_add := (kv.2.map some).toFinset \ existing
          pure ()
        else
          pure ()
    return ()

/-- src/_states/jamf.py `policy`: ensure the named policy is present.  The
dry-run flag `optsTest` is available to the state but never consulted by its
body, and the final `pol.save()` is unconditional, exactly as in the source. -/
def policy (name frequency : String) (enabled : Bool)
    (site category : Option String) (triggers : Option (List String))
    (scope : Option (List (List (String × PyVal))))
    (packages : Option (List (List (String × List String))))
    (server : Server) (optsTest : Bool) : Except PyError RunOut := do
  let _ := optsTest
  if frequency ∉ policy_frequencies then
    throw (.saltInvocationError ("Specified frequency " ++ frequency ++ " is not a valid policy frequency"))
  let mut trace : List Event := [.fetch "policy" name]
  let pol0 :=
    match server.policies name with
    | some p => p
    | none => newBlankPolicy name
  let (pol1, chOld1, chNew1) ← policyBasics pol0 enabled frequency [] []
  let (pol2, chOld2, chNew2) ← policySite pol1 site chOld1 chNew1
  let (pol3, chOld3, chNew3) ← policyCategory pol2 category chOld2 chNew2
  let (pol4, chOld4, chNew4) ← policyTriggers pol3 triggers chOld3 chNew3
  let (pol5, chOld5, chNew5, trace5) ← policyScope pol4 scope chOld4 chNew4 server trace
  trace := trace5
  policyPackages pol5 packages
  trace := trace ++ [.save "policy" name]
  match server.postErr "policy" name with
  | some m => throw (.postError m)
  | none => pure ()
  return ⟨⟨name, some true, some ⟨chOld5, chNew5⟩, ""⟩, trace, pol5⟩

/-- src/_states/jamf_proxy_policy.py `_policy_selfservice`: reconcile the
`enabled` convenience flag against `self_service/use_for_self_service`,
writing back with Python `str()`.  Returns the `(changes_old, changes_new)`
pair, `(None, None)` when no desired state was given. -/
def proxy_policy_selfservice (policy0 : XmlNode)
    (self_service : Option (List (List (String × PyVal)))) :
    Except PyError ((PyVal × PyVal) × XmlNode) := do
  match self_service with
  | none => return ((.pnone, .pnone), policy0)
  | some items => do
    let mut chOld : PyDict := []
    let mut chNew : PyDict := []
    let mut pol := policy0
    for item in items do
      for kv in item do
        if kv.1 = "enabled" then do
          let ss ← pol.attr "self_service"
          let ufss ← ss.attr "use_for_self_service"
          let enabled := ufss.text == some "true"
          if pyEq kv.2 (.pbool enabled) = false then
            chOld := dictSet chOld "enabled" (.pbool enabled)
            chNew := dictSet chNew "enabled" kv.2
            pol := pol.setTextP ["self_service", "use_for_self_service"] (some (pyStr kv.2))
        else
          pure ()
    return ((.pdict chOld, .pdict chNew), pol)

/-- src/_states/jamf_proxy_policy.py `_policy_triggers`: extract the current
trigger set (reserved flags reading `'true'`, plus the custom slot when its
text is truthy), compute the additions and removals as set differences, and
apply them.  Returns `(None, None)` when no desired triggers were given and
the `(changes_old, changes_new)` lists otherwise. -/
def proxy_policy_triggers (policy0 : XmlNode) (triggers : Option (List String)) :
    Except PyError ((PyVal × PyVal) × XmlNode) := do
  match triggers with
  | none => return ((.pnone, .pnone), policy0)
  | some trigs => do
    let general ← policy0.attr "general"
    let fromReserved := policy_reserved_triggers.foldl (fun acc rtrig =>
      if general.findtextP ["trigger_" ++ rtrig] == some "true" then acc ∪ {rtrig} else acc)
      (∅ : Finset String)
    let old_triggers :=
      match general.findtextP ["trigger_other"] with
      | some s => if s ≠ "" then fromReserved ∪ {s} else fromReserved
      | none => fromReserved
    let triggers_remove := triggersRemove trigs old_triggers
    let triggers_add := triggersAdd trigs old_triggers
    if triggers_add.card > 0 ∨ triggers_remove.card > 0 then
      let changes_old := PyVal.plist ((pySetList old_triggers).map .pstr)
      let changes_new := PyVal.plist (trigs.map .pstr)
      let pol1 ← (pySetList triggers_remove).foldlM applyRemoveTrigger policy0
      let pol2 ← (pySetList triggers_add).foldlM applyAddTrigger pol1
      return ((changes_old, changes_new), pol2)
    else
      return ((.plist [], .plist []), policy0)

/-- Python truthiness of an optional string (`if source`): false for `None`
and for the empty string. -/
def pyTruthy : Option String → Bool
  | none => false
  | some s => !s.isEmpty

/-- The values the salt host returns for the dispatched `__salt__` calls of
one `jamf.script` / `jamf.mac_configuration_profile` state run.  These calls
(file gathering, and the repository's own execution modules reached through
host dispatch) are collaborators of the state function being embedded. -/
structure SaltEnv where
  sourceListRes : String × String
  getManagedRes : Option String × Option (String × String) × String
  manageScriptRes : StateRet
  manageProfileRes : StateRet

/-- src/_states/jamf.py `script`: the state obtains a local client handle (no
network interaction), initializes the return structure, and then validates
that `source` and `contents` are not combined before any dispatched call.
The trace is reported even when an exception propagates. -/
def script_state (name : String) (source : Option String) (source_hash : String)
    (contents : Option String) (priority : Option String) (env : SaltEnv) :
    List Event × Except PyError StateRet :=
  let _ := source_hash
  let ret0 : StateRet := ⟨name, some false, some ⟨[], []⟩, ""⟩
  if pyTruthy source ∧ contents ≠ none then
    ([], .error (.saltInvocationError "source cannot be used in combination with contents"))
  else if priority ≠ none ∧ priority ∉ [some "After", some "Before", some "At Reboot"] then
    ([], .error (.saltInvocationError "priority must be one of: After, Before, or At Reboot"))
  else if source ≠ none then
    ([.saltCall "file.source_list", .saltCall "file.get_managed",
      .saltCall "jamf_scripts.manage_script"], .ok env.manageScriptRes)
  else if contents ≠ none then
    ([.saltCall "jamf_scripts.manage_script"], .ok env.manageScriptRes)
  else
    ([], .ok ret0)

/-- src/_states/jamf.py `mac_configuration_profile`: same head shape as
`script` (client handle, return structure, then the mutual-exclusion check on
`source`/`contents` before any dispatched call). -/
def mac_configuration_profile (name : String) (source : Option String)
    (source_hash : String) (contents : Option String) (env : SaltEnv) :
    List Event × Except PyError StateRet :=
  let _ := source_hash
  let ret0 : StateRet := ⟨name, some false, some ⟨[], []⟩, ""⟩
  if pyTruthy source ∧ contents ≠ none then
    ([], .error (.saltInvocationError "source cannot be used in combination with contents"))
  else if source ≠ none then
    ([.saltCall "file.source_list", .saltCall "file.get_managed",
      .saltCall "jamf_profiles.manage_mac_profile"], .ok env.manageProfileRes)
  else if contents ≠ none then
    ([.saltCall "jamf_profiles.manage_mac_profile"], .ok env.manageProfileRes)
  else
    ([], .ok ret0)

/-- src/_modules/jamf_scripts.py `manage_script` lines 254-264 (identically in
src/_modules/jamf.py): the hash of the existing remote script contents.  Both
branches of the hash-type conditional invoke `sha256_digest`; the digest
implementations live in `salt.utils.hashutils` and are passed as a parameter. -/
def manage_script_name_sum (sha256_digest : String → String)
    (hash_type : String) (name_contents : Option String) : Option String :=
  match name_contents with
  | none => none
  | some c =>
    if hash_type = "sha256" then some (sha256_digest c)
    else some (sha256_digest c)

/-- src/_modules/jamf_scripts.py `manage_script` line 266 (identically in
src/_modules/jamf.py): a sourced script needs an update when the remote hash
is missing or differs from `source_sum.get('hsum', hash_type)`. -/
def manage_script_needs_update (sha256_digest : String → String) (hash_type : String)
    (source_sum_hsum : Option String) (name_contents : Option String) : Bool :=
  match manage_script_name_sum sha256_digest hash_type name_contents with
  | none => true
  | some ns => source_sum_hsum.getD hash_type ≠ ns

/-- A server holding exactly one object of each kind, used for concrete runs. -/
def demoServer (p ns dp cat : Option XmlNode) : Server :=
  ⟨fun _ => p, fun _ => ns, fun _ => dp, fun _ => cat, fun _ => none, fun _ _ => none⟩

/-- A fetched policy whose `enabled` flag reads the stored literal `false`. -/
def cexPolicyFound : XmlNode :=
  .mk "policy" none
    [.mk "general" none
      [.mk "name" (some "P") [],
       .mk "enabled" (some "false") [],
       .mk "frequency" (some "Ongoing") []]]

/-- A fetched policy already in the desired state for
`enabled = true, frequency = "Ongoing"`. -/
def cexPolicyInState : XmlNode :=
  .mk "policy" none
    [.mk "general" none
      [.mk "name" (some "P") [],
       .mk "enabled" (some "true") [],
       .mk "frequency" (some "Ongoing") []]]

/-- Two successive applications of the same desired policy state
(`enabled = true`), the second starting from the representation produced (and
committed) by the first. -/
def cexSecondRun : Except PyError RunOut := do
  let o1 ← policy "P" "Ongoing" true none none none none none
    (demoServer (some cexPolicyFound) none none none) false
  policy "P" "Ongoing" true none none none none none
    (demoServer (some o1.obj) none none none) false

/-- A stored network segment, for no-change and dry-run runs. -/
def nsFixture : XmlNode :=
  .mk "network_segment" none
    [.mk "name" (some "Office") [],
     .mk "starting_address" (some "10.0.0.1") [],
     .mk "ending_address" (some "10.0.0.254") []]

/-- A stored distribution point whose `ip_address` is set. -/
def dpFixture : XmlNode :=
  .mk "distribution_point" none
    [.mk "name" (some "DP1") [],
     .mk "ip_address" (some "10.0.0.1") [],
     .mk "connection_type" (some "SMB") []]

/-- A host environment with inert dispatch results, for concrete runs. -/
def demoSaltEnv : SaltEnv :=
  ⟨("", ""), (none, none, ""), ⟨"s", none, none, ""⟩, ⟨"s", none, none, ""⟩⟩

/-- The structural facts maintained by the `policy` state's reconciliation
pipeline while it works on a freshly constructed blank policy: no top-level
`trigger_other` element, and a `general` placeholder holding the `enabled`,
`frequency` and `category` placeholders and no trigger elements. -/
def PolicyShape (pol : XmlNode) : Prop :=
  pol.findC "trigger_other" = none ∧
  ∃ g, pol.findC "general" = some g
    ∧ (g.findC "enabled").isSome
    ∧ (g.findC "frequency").isSome
    ∧ (∃ cat, g.findC "category" = some cat)
    ∧ g.findC "trigger_startup" = none
    ∧ g.findC "trigger_login" = none
    ∧ g.findC "trigger_logout" = none
    ∧ g.findC "trigger_network_state_changed" = none
    ∧ g.findC "trigger_enrollment_complete" = none
    ∧ g.findC "trigger_checkin" = none
    ∧ g.findC "trigger_other" = none

/-! ### Lemmas on first-match search and in-place mutation -/

theorem find?_tag_cons_pos (t : String) (a : XmlNode) (l : List XmlNode)
    (h : (a.tag == t) = true) :
    (a :: l).find? (fun x => x.tag == t) = some a :=
  @List.find?_cons_of_pos _ (fun x => x.tag == t) a l h

theorem find?_tag_cons_neg (t : String) (a : XmlNode) (l : List XmlNode)
    (h : ¬ (a.tag == t) = true) :
    (a :: l).find? (fun x => x.tag == t) = l.find? (fun x => x.tag == t) :=
  @List.find?_cons_of_neg _ (fun x => x.tag == t) a l h

theorem modifyFirst_of_find?_none (t : String) (g : XmlNode → XmlNode) :
    ∀ cs : List XmlNode, cs.find? (fun x => x.tag == t) = none → modifyFirst t g cs = cs
  | [], _ => rfl
  | c :: rest, h => by
    by_cases hc : (c.tag == t) = true
    · rw [find?_tag_cons_pos t c rest hc] at h
      cases h
    · rw [find?_tag_cons_neg t c rest hc] at h
      unfold modifyFirst
      rw [if_neg hc, modifyFirst_of_find?_none t g rest h]

theorem find?_modifyFirst_self (t : String) (g : XmlNode → XmlNode)
    (hg : ∀ c, c.tag = t → (g c).tag = t) :
    ∀ cs c, cs.find? (fun x => x.tag == t) = some c →
      (modifyFirst t g cs).find? (fun x => x.tag == t) = some (g c)
  | [], c, h => by cases h
  | a :: rest, c, h => by
    by_cases ha : (a.tag == t) = true
    · rw [find?_tag_cons_pos t a rest ha] at h
      injection h with h1
      subst h1
      unfold modifyFirst
      rw [if_pos ha]
      have htag : ((g a).tag == t) = true := by
        rw [hg a (by simpa using ha)]
        simp
      rw [find?_tag_cons_pos t (g a) rest htag]
    · rw [find?_tag_cons_neg t a rest ha] at h
      unfold modifyFirst
      rw [if_neg ha, find?_tag_cons_neg t a (modifyFirst t g rest) ha]
      exact find?_modifyFirst_self t g hg rest c h

theorem find?_modifyFirst_ne (t s : String) (g : XmlNode → XmlNode)
    (hg : ∀ c, c.tag = t → (g c).tag = t) (hst : s ≠ t) :
    ∀ cs : List XmlNode,
      (modifyFirst t g cs).find? (fun x => x.tag == s) = cs.find? (fun x => x.tag == s)
  | [] => rfl
  | a :: rest => by
    by_cases ha : (a.tag == t) = true
    · have hat : a.tag = t := by simpa using ha
      have hga : (g a).tag = t := hg a hat
      have h1 : ¬ ((g a).tag == s) = true := by simp [hga]; exact fun hh => hst hh.symm
      have h2 : ¬ (a.tag == s) = true := by simp [hat]; exact fun hh => hst hh.symm
      unfold modifyFirst
      rw [if_pos ha, find?_tag_cons_neg s (g a) rest h1, find?_tag_cons_neg s a rest h2]
    · unfold modifyFirst
      rw [if_neg ha]
      by_cases has : (a.tag == s) = true
      · rw [find?_tag_cons_pos s a (modifyFirst t g rest) has, find?_tag_cons_pos s a rest has]
      · rw [find?_tag_cons_neg s a (modifyFirst t g rest) has, find?_tag_cons_neg s a rest has]
        exact find?_modifyFirst_ne t s g hg hst rest

theorem modifyP_tag_of_f_tag (p : List String) (f : XmlNode → XmlNode)
    (hf : ∀ m, (f m).tag = m.tag) : ∀ m : XmlNode, (m.modifyP p f).tag = m.tag := by
  intro m
  cases p with
  | nil => cases m with | mk a b c => exact hf _
  | cons q qs => cases m; rfl

theorem setTextP_tag (p : List String) (v : Option String) (m : XmlNode) :
    (m.setTextP p v).tag = m.tag :=
  modifyP_tag_of_f_tag p _ (fun m => by cases m; rfl) m

theorem appendChildP_tag (p : List String) (t0 : String) (tx : Option String) (m : XmlNode) :
    (m.appendChildP p t0 tx).tag = m.tag :=
  modifyP_tag_of_f_tag p _ (fun m => by cases m; rfl) m

theorem findC_setTextP_ne (n : XmlNode) (a s : String) (p : List String) (v : Option String)
    (hs : s ≠ a) : (n.setTextP (a :: p) v).findC s = n.findC s := by
  cases n with
  | mk tg tx cs =>
    exact find?_modifyFirst_ne a s _
      (fun c hc => (setTextP_tag p v c).trans hc) hs cs

theorem findC_setTextP_self (n : XmlNode) (a : String) (p : List String) (v : Option String)
    (c : XmlNode) (h : n.findC a = some c) :
    (n.setTextP (a :: p) v).findC a = some (c.setTextP p v) := by
  cases n with
  | mk tg tx cs =>
    exact find?_modifyFirst_self a _
      (fun c hc => (setTextP_tag p v c).trans hc) cs c h

theorem findC_appendChildP_ne (n : XmlNode) (a s : String) (p : List String)
    (t0 : String) (tx : Option String) (hs : s ≠ a) :
    (n.appendChildP (a :: p) t0 tx).findC s = n.findC s := by
  cases n with
  | mk tg tx0 cs =>
    exact find?_modifyFirst_ne a s _
      (fun c hc => (appendChildP_tag p t0 tx c).trans hc) hs cs

theorem findC_appendChildP_self (n : XmlNode) (a : String) (p : List String)
    (t0 : String) (tx : Option String) (c : XmlNode) (h : n.findC a = some c) :
    (n.appendChildP (a :: p) t0 tx).findC a = some (c.appendChildP p t0 tx) := by
  cases n with
  | mk tg tx0 cs =>
    exact find?_modifyFirst_self a _
      (fun c hc => (appendChildP_tag p t0 tx c).trans hc) cs c h

theorem findC_append_child_ne (tg : String) (tx : Option String) (cs : List XmlNode)
    (t0 s : String) (tx0 : Option String) (hs : s ≠ t0) :
    (XmlNode.mk tg tx (cs ++ [.mk t0 tx0 []])).findC s = (XmlNode.mk tg tx cs).findC s := by
  show (cs ++ [XmlNode.mk t0 tx0 []]).find? (fun x => x.tag == s) = cs.find? (fun x => x.tag == s)
  rw [List.find?_append]
  have hnew : ([XmlNode.mk t0 tx0 []].find? (fun x => x.tag == s)) = none := by
    have : ¬ ((XmlNode.mk t0 tx0 []).tag == s) = true := by
      simp [XmlNode.tag]
      exact fun hh => hs hh.symm
    rw [find?_tag_cons_neg s _ [] this]
    rfl
  rw [hnew]
  cases cs.find? (fun x => x.tag == s) <;> rfl

theorem findC_append_child_self (tg : String) (tx : Option String) (cs : List XmlNode)
    (t0 : String) (tx0 : Option String)
    (h : cs.find? (fun x => x.tag == t0) = none) :
    (XmlNode.mk tg tx (cs ++ [.mk t0 tx0 []])).findC t0 = some (.mk t0 tx0 []) := by
  show (cs ++ [XmlNode.mk t0 tx0 []]).find? (fun x => x.tag == t0) = some (.mk t0 tx0 [])
  rw [List.find?_append, h]
  have : ((XmlNode.mk t0 tx0 []).tag == t0) = true := by simp [XmlNode.tag]
  rw [find?_tag_cons_pos t0 _ [] this]
  rfl

theorem ensure_xml_str_tag (p : XmlNode) (t : String) (d : Option String) :
    (ensure_xml_str p t d).2.tag = p.tag := by
  unfold ensure_xml_str
  cases h : p.findC t with
  | some c =>
    simp only [h]
    split
    · exact setTextP_tag [t] d p
    · rfl
  | none =>
    simp only [h]
    split
    · rw [setTextP_tag [t] d _, appendChildP_tag [] t none p]
    · exact appendChildP_tag [] t none p

/-- C1 (amended): the field reconcilers `_ensure_xml_str` and
`_ensure_xml_bool` are idempotent: re-applying the same desired value to the
representation produced by a first application reports `(None, None)` and
leaves the representation unchanged.  (The `policy` state itself is not
idempotent for boolean fields; see the counterexample.) -/
theorem ensure_reconcilers_idempotent (parent element : XmlNode) (tagName : String)
    (desired : Option String) (desiredB : Option Bool) :
    ensure_xml_str (ensure_xml_str parent tagName desired).2 tagName desired =
      ((none, none), (ensure_xml_str parent tagName desired).2)
    ∧ ensure_xml_bool (ensure_xml_bool element desiredB).2 desiredB =
      ((none, none), (ensure_xml_bool element desiredB).2) := by
  constructor
  · cases parent with
    | mk tg tx cs =>
      cases hp : (XmlNode.mk tg tx cs).findC tagName with
      | some c =>
        by_cases he : c.text = desired
        · have h1 : ensure_xml_str (XmlNode.mk tg tx cs) tagName desired =
              ((none, none), XmlNode.mk tg tx cs) := by
            unfold ensure_xml_str
            rw [hp]
            simp [he]
          rw [h1]
          exact h1
        · have h1 : ensure_xml_str (XmlNode.mk tg tx cs) tagName desired =
              ((c.text, desired), (XmlNode.mk tg tx cs).setTextP [tagName] desired) := by
            unfold ensure_xml_str
            rw [hp]
            simp [he]
          have hfind : ((XmlNode.mk tg tx cs).setTextP [tagName] desired).findC tagName =
              some (c.setTextP [] desired) :=
            findC_setTextP_self _ tagName [] desired c hp
          have htext : (c.setTextP [] desired).text = desired := by cases c; rfl
          rw [h1]
          unfold ensure_xml_str
          rw [hfind]
          simp [htext]
      | none =>
        cases desired with
        | none =>
          have h1 : ensure_xml_str (XmlNode.mk tg tx cs) tagName none =
              ((none, none), XmlNode.mk tg tx (cs ++ [.mk tagName none []])) := by
            unfold ensure_xml_str
            rw [hp]
            simp [XmlNode.appendChildP, XmlNode.modifyP, XmlNode.text, XmlNode.tag, XmlNode.children]
          rw [h1]
          unfold ensure_xml_str
          rw [findC_append_child_self tg tx cs tagName none hp]
          simp [XmlNode.text]
        | some v =>
          have h1 : ensure_xml_str (XmlNode.mk tg tx cs) tagName (some v) =
              ((none, some v),
                (XmlNode.mk tg tx (cs ++ [.mk tagName none []])).setTextP [tagName] (some v)) := by
            unfold ensure_xml_str
            rw [hp]
            simp [XmlNode.appendChildP, XmlNode.modifyP, XmlNode.text, XmlNode.tag, XmlNode.children]
          have hfind : ((XmlNode.mk tg tx (cs ++ [.mk tagName none []])).setTextP
                [tagName] (some v)).findC tagName =
              some ((XmlNode.mk tagName none []).setTextP [] (some v)) :=
            findC_setTextP_self _ tagName [] (some v) _
              (findC_append_child_self tg tx cs tagName none hp)
          rw [h1]
          unfold ensure_xml_str
          rw [hfind]
          simp [XmlNode.setTextP, XmlNode.modifyP, XmlNode.text]
  · cases desiredB with
    | none => rfl
    | some d =>
      cases element with
      | mk tg tx cs =>
        by_cases hb : ((XmlNode.mk tg tx cs).text == some "true") = d
        · simp [ensure_xml_bool, hb]
        · cases d <;> simp_all [ensure_xml_bool, XmlNode.text]

/-- C1 counterexample: applying the same desired state (`enabled = true`) a
second time, starting from the representation produced and committed by the
first application, again reports a non-empty change-set: the first write
stored Python str(True) = "True", which the next read (comparing against the
lowercase literal) classifies as disabled. -/
theorem policy_second_application_not_empty :
    cexSecondRun.map (fun o => o.ret.changes) =
      .ok (some ⟨[("enabled", .pbool false)], [("enabled", .pbool true)]⟩) := by
  rfl

/-- C2 counterexample: the `policy` state never consults the dry-run flag:
with `__opts__['test']` active, a changed policy is still committed and the
result is success, not the pending `None`. -/
theorem policy_dry_run_still_saves :
    (policy "P" "Ongoing" true none none none none none
        (demoServer (some cexPolicyFound) none none none) true).map
      (fun o => (o.trace, o.ret.result)) =
      .ok ([.fetch "policy" "P", .save "policy" "P"], some true) := by
  rfl

/-- C4 counterexample: the `policy` state commits unconditionally: on a policy
already in the desired state both change mappings are empty, yet a save call
is still issued and the comment does not report "already in the desired
state". -/
theorem policy_no_change_still_saves :
    (policy "P" "Ongoing" true none none none none none
        (demoServer (some cexPolicyInState) none none none) false).map
      (fun o => (o.ret.changes, o.ret.comment, o.trace)) =
      .ok (some ⟨[], []⟩, "", [.fetch "policy" "P", .save "policy" "P"]) := by
  rfl

/-- C6 counterexample: the `policy` state's boolean write stores Python
str(True) = "True" into the node text, not the lowercase literal. -/
theorem policy_enabled_write_not_lowercase :
    (policy "P" "Ongoing" true none none none none none
        (demoServer (some cexPolicyFound) none none none) false).map
      (fun o => o.obj.findtextP ["general", "enabled"]) = .ok (some "True") := by
  rfl

/-- C6 (amended): `_ensure_xml_bool` writes exactly the lowercase literals
`'true'`/`'false'` and normalizes the stored string before comparing (no
change exactly when the desired boolean equals the normalized current value);
the `policy` state's enabled field instead stores Python str() capitals (see
the counterexample). -/
theorem ensure_xml_bool_lowercase (element : XmlNode) (desired : Option Bool) :
    ((ensure_xml_bool element desired).1.2 ≠ none →
      (ensure_xml_bool element desired).2.text = some "true"
      ∨ (ensure_xml_bool element desired).2.text = some "false")
    ∧ ((ensure_xml_bool element desired).1 = (none, none) ↔
        desired = none ∨ desired = some (element.text == some "true"))
    ∧ ((ensure_xml_bool element desired).1 = (none, none) →
        (ensure_xml_bool element desired).2 = element) := by
  rcases desired with _ | d
  · simp [ensure_xml_bool]
  · cases element with
    | mk tg tx cs =>
      cases d <;> by_cases hb : (XmlNode.text (.mk tg tx cs) == some "true") = true <;>
        simp_all [ensure_xml_bool, XmlNode.text]

/-- Witness for the amended C6 theorem at a concrete changed write. -/
theorem ensure_xml_bool_lowercase_witness :
    (ensure_xml_bool (.mk "enabled" (some "false") []) (some true)).1.2 ≠ none ∧
    ((ensure_xml_bool (.mk "enabled" (some "false") []) (some true)).2.text = some "true"
      ∨ (ensure_xml_bool (.mk "enabled" (some "false") []) (some true)).2.text = some "false") :=
  ⟨by decide,
    (ensure_xml_bool_lowercase (.mk "enabled" (some "false") []) (some true)).1 (by decide)⟩

/-- C3: evaluation at the failing input.  `_ensure_xml_str` has no guard for
an omitted (`None`) desired value: it clears an existing value, creates an
empty node when the field is missing, and `distribution_point` records the
omitted field in both the `old` and `new` change mappings (and therefore also
commits). -/
theorem omitted_field_clears_node :
    ensure_xml_str (.mk "distribution_point" none [.mk "ip_address" (some "10.0.0.1") []])
        "ip_address" none =
      ((some "10.0.0.1", none), .mk "distribution_point" none [.mk "ip_address" none []])
    ∧ ensure_xml_str (.mk "distribution_point" none []) "share_name" none =
      ((none, none), .mk "distribution_point" none [.mk "share_name" none []])
    ∧ (distribution_point_state "DP1" none none (some "SMB") none none none none none
          (demoServer none none (some dpFixture) none) false).map
        (fun o => (dictGet (o.ret.changes.getD ⟨[], []⟩).old "ip_address",
                   dictGet (o.ret.changes.getD ⟨[], []⟩).new "ip_address",
                   o.obj.findtextP ["ip_address"],
                   o.trace)) =
      .ok (some (.pstr "10.0.0.1"), some .pnone, some "",
           [.fetch "distribution_point" "DP1", .save "distribution_point" "DP1"]) := by
  exact ⟨by rfl, by rfl, by rfl⟩

/-- C5: the computed trigger additions and removals are the pure set
differences of the desired list and the current set, independent of the input
ordering; in particular current {A, B} against desired [B, C] yields
added = {C} and removed = {A}. -/
theorem trigger_set_differences (current : Finset String) (desired : List String) :
    (∀ x, x ∈ triggersAdd desired current ↔ x ∈ desired ∧ x ∉ current)
    ∧ (∀ x, x ∈ triggersRemove desired current ↔ x ∈ current ∧ x ∉ desired)
    ∧ (∀ desired2 : List String, List.Perm desired desired2 →
        triggersAdd desired2 current = triggersAdd desired current
        ∧ triggersRemove desired2 current = triggersRemove desired current)
    ∧ triggersAdd ["B", "C"] ({"A", "B"} : Finset String) = {"C"}
    ∧ triggersRemove ["B", "C"] ({"A", "B"} : Finset String) = {"A"} := by
  refine ⟨?_, ?_, ?_, ?_, ?_⟩
  · intro x
    simp [triggersAdd]
  · intro x
    simp [triggersRemove]
  · intro d2 hp
    unfold triggersAdd triggersRemove
    rw [List.toFinset_eq_of_perm _ _ hp]
    exact ⟨rfl, rfl⟩
  · decide
  · decide

/-- Witness for C5 at the concrete instance of the claim. -/
theorem trigger_set_differences_witness :
    triggersAdd ["B", "C"] ({"A", "B"} : Finset String) = {"C"} :=
  (trigger_set_differences {"A", "B"} ["B", "C"]).2.2.2.1

/-- C9: both branches of the hash-type conditional in `manage_script` apply
`sha256_digest`, so the hash computed for the existing remote script contents
is identical for any two configured hash types, and (for a source sum that
carries a hash) the update-needed decision does not depend on the configured
hash type. -/
theorem manage_script_hash_type_constant (sha256_digest : String → String)
    (hash_type1 hash_type2 : String) (name_contents : Option String) (hsum : String) :
    manage_script_name_sum sha256_digest hash_type1 name_contents =
      manage_script_name_sum sha256_digest hash_type2 name_contents
    ∧ manage_script_needs_update sha256_digest hash_type1 (some hsum) name_contents =
      manage_script_needs_update sha256_digest hash_type2 (some hsum) name_contents := by
  constructor
  · cases name_contents <;> simp [manage_script_name_sum]
  · cases name_contents <;> simp [manage_script_needs_update, manage_script_name_sum]

/-- C10: calling the `network_segment` state with `ip_range` omitted raises an
uncaught `TypeError` at the `ip_range[0]` subscript: the guard only validates
the length of a supplied list. -/
theorem network_segment_none_ip_range_type_error (name : String) (dp : Option String)
    (server : Server) (optsTest : Bool) :
    network_segment name none dp server optsTest =
      .error (.typeError "NoneType object is not subscriptable") := by
  unfold network_segment network_segment_core
  cases h : server.networkSegments name <;> rfl

/-- C7: supplying both a truthy `source` and a non-None `contents` to the
script or configuration-profile state raises `SaltInvocationError`
immediately, with an empty interaction trace: no dispatched file call and no
client call precedes the raise. -/
theorem source_contents_mutually_exclusive (name s source_hash : String)
    (contents : Option String) (priority : Option String) (env : SaltEnv)
    (hs : s ≠ "") (hc : contents ≠ none) :
    script_state name (some s) source_hash contents priority env =
      ([], .error (.saltInvocationError "source cannot be used in combination with contents"))
    ∧ mac_configuration_profile name (some s) source_hash contents env =
      ([], .error (.saltInvocationError "source cannot be used in combination with contents")) := by
  have ht : pyTruthy (some s) = true := by
    simp only [pyTruthy, Bool.not_eq_true']
    rw [← Bool.not_eq_true]
    simp [String.isEmpty_iff, hs]
  constructor
  · unfold script_state
    rw [if_pos ⟨ht, hc⟩]
  · unfold mac_configuration_profile
    rw [if_pos ⟨ht, hc⟩]

/-- Witness for C7 at a concrete invocation. -/
theorem source_contents_mutually_exclusive_witness :
    ("salt://a.sh" : String) ≠ "" ∧ (some "echo hi" : Option String) ≠ none ∧
    script_state "s1" (some "salt://a.sh") "" (some "echo hi") none demoSaltEnv =
      ([], .error (.saltInvocationError "source cannot be used in combination with contents")) :=
  ⟨by decide, by decide,
    (source_contents_mutually_exclusive "s1" "salt://a.sh" "" (some "echo hi") none demoSaltEnv
      (by decide) (by decide)).1⟩

theorem commitReport_test (objType name : String) (chOld chNew : PyDict) (server : Server)
    (trace0 : List Event) :
    (commitReport objType name chOld chNew server true trace0).2 = trace0
    ∧ ((commitReport objType name chOld chNew server true trace0).1.changes ≠ none →
        (commitReport objType name chOld chNew server true trace0).1.result = none
        ∧ (commitReport objType name chOld chNew server true trace0).1.comment =
            name ++ " would be modified") := by
  unfold commitReport
  by_cases h : chNew.length > 0
  · simp [h]
  · simp [h]

theorem commitReport_changes_none (objType name : String) (chOld chNew : PyDict)
    (server : Server) (optsTest : Bool) (trace0 : List Event)
    (h : (commitReport objType name chOld chNew server optsTest trace0).1.changes = none) :
    commitReport objType name chOld chNew server optsTest trace0 =
      (⟨name, some true, none, name ++ " is already in the desired state"⟩, trace0) := by
  by_cases hl : chNew.length > 0
  · exfalso
    unfold commitReport at h
    rw [if_pos hl] at h
    by_cases ht : optsTest
    · rw [if_pos ht] at h
      simp at h
    · rw [if_neg ht] at h
      cases hm : server.postErr objType name <;> rw [hm] at h <;> simp at h
  · unfold commitReport
    rw [if_neg hl]

/-- C2 (amended): `network_segment` and `distribution_point` honor the
dry-run flag: with `__opts__['test']` active no save call appears in the
interaction trace, and whenever a change-set was computed the result is the
pending `None`; the `policy` state by contrast never consults the flag and
always commits (see the counterexample). -/
theorem org_states_dry_run_no_commit
    (nameN : String) (ip_range : Option (List String)) (dpn : Option String)
    (nameD : String) (ip_address : Option String) (is_master : Option Bool)
    (connection_type share_name rou rop rwu rwp : Option String)
    (server : Server) (outN outD : RunOut)
    (hN : network_segment nameN ip_range dpn server true = .ok outN)
    (hD : distribution_point_state nameD ip_address is_master connection_type share_name
        rou rop rwu rwp server true = .ok outD) :
    ((∀ o n, Event.save o n ∉ outN.trace)
      ∧ (outN.ret.changes ≠ none → outN.ret.result = none))
    ∧ ((∀ o n, Event.save o n ∉ outD.trace)
      ∧ (outD.ret.changes ≠ none → outD.ret.result = none)) := by
  constructor
  · unfold network_segment at hN
    cases hc : network_segment_core nameN ip_range dpn server with
    | error e =>
      rw [hc] at hN
      cases hN
    | ok trip =>
      obtain ⟨chO, chN2, seg⟩ := trip
      rw [hc] at hN
      have hcr := commitReport_test "network_segment" nameN chO chN2 server
        [.saltCall "jamf.network_segment", .fetch "network_segment" nameN]
      simp only [bind, Except.bind, pure, Except.pure] at hN
      injection hN with hN
      subst hN
      refine ⟨?_, ?_⟩
      · intro o n hmem
        rw [hcr.1] at hmem
        simp at hmem
      · intro hch
        exact (hcr.2 hch).1
  · unfold distribution_point_state at hD
    cases hc : distribution_point_core nameD ip_address is_master connection_type share_name
        rou rop rwu rwp server with
    | error e =>
      rw [hc] at hD
      cases hD
    | ok trip =>
      obtain ⟨chO, chN2, dpx⟩ := trip
      rw [hc] at hD
      have hcr := commitReport_test "distribution_point" nameD chO chN2 server
        [.fetch "distribution_point" nameD]
      simp only [bind, Except.bind, pure, Except.pure] at hD
      injection hD with hD
      subst hD
      refine ⟨?_, ?_⟩
      · intro o n hmem
        rw [hcr.1] at hmem
        simp at hmem
      · intro hch
        exact (hcr.2 hch).1

/-- Witness for the amended C2 theorem: concrete dry-run executions of both
states, whose traces contain no save event. -/
theorem org_states_dry_run_no_commit_witness :
    (∀ o n, Event.save o n ∉
      ([.saltCall "jamf.network_segment", .fetch "network_segment" "Office"] : List Event))
    ∧ (∀ o n, Event.save o n ∉ ([.fetch "distribution_point" "DP1"] : List Event)) := by
  have h := org_states_dry_run_no_commit "Office" (some ["10.0.0.5", "10.0.0.254"]) none
    "DP1" (some "10.0.0.9") none (some "SMB") none none none none none
    (demoServer none (some nsFixture) (some dpFixture) none)
    ⟨⟨"Office", none,
        some ⟨[("starting_address", .pstr "10.0.0.1")], [("starting_address", .pstr "10.0.0.5")]⟩,
        "Office would be modified"⟩,
      [.saltCall "jamf.network_segment", .fetch "network_segment" "Office"],
      .mk "network_segment" none
        [.mk "name" (some "Office") [], .mk "starting_address" (some "10.0.0.5") [],
         .mk "ending_address" (some "10.0.0.254") []]⟩
    ⟨⟨"DP1", none,
        some ⟨[("ip_address", .pstr "10.0.0.1"), ("connection_type", .pnone),
               ("share_name", .pnone), ("read_only_username", .pnone),
               ("read_only_password", .pnone), ("read_write_username", .pnone),
               ("read_write_password", .pnone)],
              [("ip_address", .pstr "10.0.0.9"), ("connection_type", .pnone),
               ("share_name", .pnone), ("read_only_username", .pnone),
               ("read_only_password", .pnone), ("read_write_username", .pnone),
               ("read_write_password", .pnone)]⟩,
        "DP1 would be modified"⟩,
      [.fetch "distribution_point" "DP1"],
      .mk "distribution_point" none
        [.mk "name" (some "DP1") [], .mk "ip_address" (some "10.0.0.9") [],
         .mk "connection_type" (some "SMB") [], .mk "share_name" none [],
         .mk "read_only_username" none [], .mk "read_only_password" none [],
         .mk "read_write_username" none [], .mk "read_write_password" none []]⟩
    (by rfl) (by rfl)
  exact ⟨h.1.1, h.2.1⟩

/-- C4 (amended): when a `network_segment` run computes an empty change-set
(`ret['changes']` left untouched), the result is success, the comment reports
that the object is already in the desired state, and the trace contains no
save call.  The `policy` state violates this: it commits even with empty
change mappings (see the counterexample). -/
theorem network_segment_no_change_reports_success
    (name : String) (ip_range : Option (List String)) (dpn : Option String)
    (server : Server) (optsTest : Bool) (out : RunOut)
    (h : network_segment name ip_range dpn server optsTest = .ok out)
    (hch : out.ret.changes = none) :
    out.ret.result = some true
    ∧ out.ret.comment = name ++ " is already in the desired state"
    ∧ out.trace = [.saltCall "jamf.network_segment", .fetch "network_segment" name] := by
  unfold network_segment at h
  cases hc : network_segment_core name ip_range dpn server with
  | error e =>
    rw [hc] at h
    cases h
  | ok trip =>
    obtain ⟨chO, chN2, seg⟩ := trip
    rw [hc] at h
    simp only [bind, Except.bind, pure, Except.pure] at h
    injection h with h
    subst h
    have h2 := commitReport_changes_none "network_segment" name chO chN2 server optsTest
      [.saltCall "jamf.network_segment", .fetch "network_segment" name] hch
    refine ⟨?_, ?_, ?_⟩ <;> simp [RunOut.ret, RunOut.trace, h2, StateRet.result, StateRet.comment]

/-- Witness for the amended C4 theorem: a concrete run on a segment already in
the desired state. -/
theorem network_segment_no_change_reports_success_witness :
    (⟨⟨"Office", some true, none, "Office is already in the desired state"⟩,
      [.saltCall "jamf.network_segment", .fetch "network_segment" "Office"],
      nsFixture⟩ : RunOut).ret.result = some true := by
  have h := network_segment_no_change_reports_success "Office"
    (some ["10.0.0.1", "10.0.0.254"]) none
    (demoServer none (some nsFixture) (some dpFixture) none) false
    ⟨⟨"Office", some true, none, "Office is already in the desired state"⟩,
      [.saltCall "jamf.network_segment", .fetch "network_segment" "Office"],
      nsFixture⟩
    (by rfl) (by rfl)
  exact h.1

theorem findC_append_child_of_some (tg : String) (tx : Option String) (cs : List XmlNode)
    (x : XmlNode) (c : XmlNode) (s : String) (h : (XmlNode.mk tg tx cs).findC s = some c) :
    (XmlNode.mk tg tx (cs ++ [x])).findC s = some c := by
  show (cs ++ [x]).find? (fun y => y.tag == s) = some c
  rw [List.find?_append]
  have hc : cs.find? (fun y => y.tag == s) = some c := h
  rw [hc]
  rfl

theorem modifyP_cons_tag (c : XmlNode) (q : String) (qs : List String) (f : XmlNode → XmlNode) :
    (c.modifyP (q :: qs) f).tag = c.tag := by
  cases c
  rfl

theorem ensure_xml_str_findC_ne (p : XmlNode) (t : String) (d : Option String) (s : String)
    (hs : s ≠ t) : (ensure_xml_str p t d).2.findC s = p.findC s := by
  cases p with
  | mk tg tx cs =>
    unfold ensure_xml_str
    cases h : (XmlNode.mk tg tx cs).findC t with
    | some c =>
      simp only [h]
      split
      · exact findC_setTextP_ne _ t s [] d hs
      · rfl
    | none =>
      simp only [h]
      have happ : (XmlNode.mk tg tx cs).appendChildP [] t none =
          XmlNode.mk tg tx (cs ++ [.mk t none []]) := rfl
      split
      · rw [happ, findC_setTextP_ne _ t s [] d hs, findC_append_child_ne tg tx cs t s none hs]
      · rw [happ, findC_append_child_ne tg tx cs t s none hs]

theorem applyAddTrigger_ok (pol : XmlNode) (t : String)
    (hg : (pol.findC "general").isSome = true) (ho : pol.findC "trigger_other" = none) :
    ∃ pol2, applyAddTrigger pol t = .ok pol2
      ∧ (pol2.findC "general").isSome = true ∧ pol2.findC "trigger_other" = none := by
  obtain ⟨g, hgg⟩ := Option.isSome_iff_exists.mp hg
  unfold applyAddTrigger
  by_cases hres : t ∈ policy_reserved_triggers
  · rw [if_pos hres]
    cases hf : pol.findP ["general", "trigger_" ++ t] with
    | none => exact ⟨pol, rfl, hg, ho⟩
    | some el =>
      dsimp only
      by_cases htx : (el.text == some "false") = true
      · rw [if_pos htx]
        refine ⟨pol.setTextP ["general", "trigger_" ++ t] (some "true"), rfl, ?_, ?_⟩
        · rw [findC_setTextP_self pol "general" ["trigger_" ++ t] (some "true") g hgg]
          rfl
        · rw [findC_setTextP_ne pol "general" "trigger_other" ["trigger_" ++ t] (some "true")
            (by decide)]
          exact ho
      · rw [if_neg htx]
        exact ⟨pol, rfl, hg, ho⟩
  · rw [if_neg hres]
    have hisn : (pol.findC "trigger_other").isNone = true := by rw [ho]; rfl
    rw [if_pos hisn]
    have hattr : pol.attr "general" = .ok g := by unfold XmlNode.attr; rw [hgg]
    rw [hattr]
    have hstep : (pol.appendChildP ["general"] "trigger_other" none).findC "general" =
        some (g.appendChildP [] "trigger_other" none) :=
      findC_appendChildP_self pol "general" [] "trigger_other" none g hgg
    have hfound : ((pol.appendChildP ["general"] "trigger_other" none).findP
        ["general", "trigger_other"]).isSome = true := by
      unfold XmlNode.findP
      rw [hstep]
      cases g with
      | mk gt gx gc =>
        show (XmlNode.findP (XmlNode.mk gt gx (gc ++ [XmlNode.mk "trigger_other" none []])) ["trigger_other"]).isSome = true
        unfold XmlNode.findP
        show (match (XmlNode.mk gt gx (gc ++ [XmlNode.mk "trigger_other" none []])).findC "trigger_other" with
          | none => none
          | some c => XmlNode.findP c []).isSome = true
        cases hgc : gc.find? (fun y => y.tag == "trigger_other") with
        | some c0 =>
          rw [show (XmlNode.mk gt gx (gc ++ [XmlNode.mk "trigger_other" none []])).findC "trigger_other" = some c0 from
            findC_append_child_of_some gt gx gc _ c0 "trigger_other" hgc]
          rfl
        | none =>
          rw [findC_append_child_self gt gx gc "trigger_other" none hgc]
          rfl
    obtain ⟨tother, hto⟩ := Option.isSome_iff_exists.mp hfound
    simp only [bind, Except.bind, pure, Except.pure]
    rw [hto]
    refine ⟨(pol.appendChildP ["general"] "trigger_other" none).setTextP
      ["general", "trigger_other"] (some t), rfl, ?_, ?_⟩
    · rw [findC_setTextP_self _ "general" ["trigger_other"] (some t) _ hstep]
      rfl
    · rw [findC_setTextP_ne _ "general" "trigger_other" ["trigger_other"] (some t) (by decide)]
      rw [findC_appendChildP_ne pol "general" "trigger_other" [] "trigger_other" none (by decide)]
      exact ho

theorem addLoop_ok (ts : List String) : ∀ pol : XmlNode,
    (pol.findC "general").isSome = true → pol.findC "trigger_other" = none →
    ∃ pol2, List.foldlM applyAddTrigger pol ts = .ok pol2
      ∧ (pol2.findC "general").isSome = true ∧ pol2.findC "trigger_other" = none := by
  induction ts with
  | nil =>
    intro pol hg ho
    exact ⟨pol, rfl, hg, ho⟩
  | cons t ts ih =>
    intro pol hg ho
    obtain ⟨pol1, h1, hg1, ho1⟩ := applyAddTrigger_ok pol t hg ho
    obtain ⟨pol2, h2, hg2, ho2⟩ := ih pol1 hg1 ho1
    refine ⟨pol2, ?_, hg2, ho2⟩
    rw [List.foldlM_cons, h1]
    exact h2

theorem newBlankPolicy_shape (name : String) : PolicyShape (newBlankPolicy name) := by
  refine ⟨rfl, _, rfl, rfl, rfl, ⟨_, rfl⟩, rfl, rfl, rfl, rfl, rfl, rfl, rfl⟩

theorem PolicyShape_transfer (pol pol2 g g2 : XmlNode)
    (h : PolicyShape pol)
    (hg : pol.findC "general" = some g)
    (hg2 : pol2.findC "general" = some g2)
    (hoth : pol2.findC "trigger_other" = none)
    (heq : ∀ s : String, s ≠ "name" → s ≠ "site" → s ≠ "enabled" → s ≠ "frequency" →
        s ≠ "category" → g2.findC s = g.findC s)
    (hen : (g2.findC "enabled").isSome = true)
    (hfr : (g2.findC "frequency").isSome = true)
    (hcat : (g2.findC "category").isSome = true) :
    PolicyShape pol2 := by
  obtain ⟨ho0, g0, hg0, hen0, hfr0, hcat0, t1, t2, t3, t4, t5, t6, t7⟩ := h
  have hgg : g0 = g := by
    rw [hg] at hg0
    injection hg0 with hh
    exact hh.symm
  subst hgg
  obtain ⟨cat2, hcat2⟩ := Option.isSome_iff_exists.mp hcat
  refine ⟨hoth, g2, hg2, hen, hfr, ⟨cat2, hcat2⟩, ?_, ?_, ?_, ?_, ?_, ?_, ?_⟩
  · rw [heq "trigger_startup" (by decide) (by decide) (by decide) (by decide) (by decide)]
    exact t1
  · rw [heq "trigger_login" (by decide) (by decide) (by decide) (by decide) (by decide)]
    exact t2
  · rw [heq "trigger_logout" (by decide) (by decide) (by decide) (by decide) (by decide)]
    exact t3
  · rw [heq "trigger_network_state_changed" (by decide) (by decide) (by decide) (by decide)
      (by decide)]
    exact t4
  · rw [heq "trigger_enrollment_complete" (by decide) (by decide) (by decide) (by decide)
      (by decide)]
    exact t5
  · rw [heq "trigger_checkin" (by decide) (by decide) (by decide) (by decide) (by decide)]
    exact t6
  · rw [heq "trigger_other" (by decide) (by decide) (by decide) (by decide) (by decide)]
    exact t7

theorem policyOldTriggers_empty (pol : XmlNode) (h : PolicyShape pol) :
    policyOldTriggers pol = ∅ := by
  obtain ⟨ho, g, hg, hen, hfr, hcat, t1, t2, t3, t4, t5, t6, t7⟩ := h
  have hfp : ∀ s : String, g.findC s = none → pol.findP ["general", s] = none := by
    intro s hs
    unfold XmlNode.findP
    rw [hg]
    unfold XmlNode.findP
    rw [hs]
  unfold policyOldTriggers policy_reserved_triggers
  simp only [List.foldl_cons, List.foldl_nil]
  rw [show pol.findP ["general", "trigger_" ++ "startup"] = none from hfp _ t1,
      show pol.findP ["general", "trigger_" ++ "login"] = none from hfp _ t2,
      show pol.findP ["general", "trigger_" ++ "logout"] = none from hfp _ t3,
      show pol.findP ["general", "trigger_" ++ "network_state_changed"] = none from hfp _ t4,
      show pol.findP ["general", "trigger_" ++ "enrollment_complete"] = none from hfp _ t5,
      show pol.findP ["general", "trigger_" ++ "checkin"] = none from hfp _ t6,
      show pol.findP ["general", "trigger_other"] = none from hfp _ t7]
  rfl

theorem policyTriggers_ok (pol : XmlNode) (triggers : Option (List String)) (chO chN : PyDict)
    (h : PolicyShape pol) :
    ∃ pol4 chO4 chN4, policyTriggers pol triggers chO chN = .ok (pol4, chO4, chN4) := by
  cases triggers with
  | none => exact ⟨pol, chO, chN, rfl⟩
  | some trigs =>
    have hempty : policyOldTriggers pol = ∅ := policyOldTriggers_empty pol h
    obtain ⟨ho, g, hg, _⟩ := h
    have hgs : (pol.findC "general").isSome = true := by rw [hg]; rfl
    have hrem : triggersRemove trigs (∅ : Finset String) = ∅ := by
      unfold triggersRemove
      exact Finset.empty_sdiff _
    have hsl : pySetList (∅ : Finset String) = [] := by
      unfold pySetList
      exact Finset.sort_empty _
    unfold policyTriggers
    dsimp only
    rw [hempty]
    by_cases hcard : (triggersAdd trigs ∅).card > 0 ∨ (triggersRemove trigs ∅).card > 0
    · rw [if_pos hcard, hrem, hsl]
      obtain ⟨pol2, h2, _, _⟩ := addLoop_ok (pySetList (triggersAdd trigs ∅)) pol hgs ho
      refine ⟨pol2, dictSet chO "triggers" (.plist (List.map .pstr [])),
        dictSet chN "triggers" (.plist (trigs.map .pstr)), ?_⟩
      simp only [List.foldlM_nil, bind, Except.bind, pure, Except.pure]
      rw [h2]
    · rw [if_neg hcard]
      exact ⟨pol, chO, chN, rfl⟩

theorem modifyP_nil_apply (c : XmlNode) (f : XmlNode → XmlNode) : c.modifyP [] f = f c := by
  cases c
  rfl

theorem findC_modifyP_one_self (pol g : XmlNode) (a : String) (f : XmlNode → XmlNode)
    (hg : pol.findC a = some g) (hf : ∀ c, c.tag = a → (f c).tag = a) :
    (pol.modifyP [a] f).findC a = some (f g) := by
  cases pol with
  | mk tg tx cs =>
    have h := find?_modifyFirst_self a (fun c => c.modifyP [] f)
      (fun c hc => by show (c.modifyP [] f).tag = a; rw [modifyP_nil_apply]; exact hf c hc) cs g hg
    have h2 : ((fun c => XmlNode.modifyP c [] f) g) = f g := by
      show g.modifyP [] f = f g
      exact modifyP_nil_apply g f
    rw [h2] at h
    exact h

theorem findC_modifyP_one_ne (pol : XmlNode) (a s : String) (f : XmlNode → XmlNode)
    (hs : s ≠ a) (hf : ∀ c, c.tag = a → (f c).tag = a) :
    (pol.modifyP [a] f).findC s = pol.findC s := by
  cases pol with
  | mk tg tx cs =>
    exact find?_modifyFirst_ne a s (fun c => c.modifyP [] f)
      (fun c hc => by show (c.modifyP [] f).tag = a; rw [modifyP_nil_apply]; exact hf c hc) hs cs

theorem findC_modifyP_two_self (pol g : XmlNode) (a b : String) (f : XmlNode → XmlNode)
    (hg : pol.findC a = some g) :
    (pol.modifyP [a, b] f).findC a = some (g.modifyP [b] f) := by
  cases pol with
  | mk tg tx cs =>
    exact find?_modifyFirst_self a (fun c => c.modifyP [b] f)
      (fun c hc => (modifyP_cons_tag c b [] f).trans hc) cs g hg

theorem findC_modifyP_two_ne (pol : XmlNode) (a b s : String) (f : XmlNode → XmlNode)
    (hs : s ≠ a) :
    (pol.modifyP [a, b] f).findC s = pol.findC s := by
  cases pol with
  | mk tg tx cs =>
    exact find?_modifyFirst_ne a s (fun c => c.modifyP [b] f)
      (fun c hc => (modifyP_cons_tag c b [] f).trans hc) hs cs

theorem findC_tag_of_find (pol g : XmlNode) (a : String) (hg : pol.findC a = some g) :
    g.tag = a := by
  have := List.find?_some hg
  simpa using this

theorem PolicyShape_setText (pol : XmlNode) (x : String) (v : Option String)
    (h : PolicyShape pol) (hx : x = "enabled" ∨ x = "frequency") :
    PolicyShape (pol.setTextP ["general", x] v) := by
  obtain ⟨ho, g, hg, hen, hfr, hcatE, hrest⟩ := h
  obtain ⟨en, henEq⟩ := Option.isSome_iff_exists.mp hen
  obtain ⟨fr, hfrEq⟩ := Option.isSome_iff_exists.mp hfr
  obtain ⟨cat, hcatEq⟩ := hcatE
  refine PolicyShape_transfer pol _ g (g.setTextP [x] v)
    ⟨ho, g, hg, hen, hfr, ⟨cat, hcatEq⟩, hrest⟩ hg
    (findC_setTextP_self pol "general" [x] v g hg) ?_ ?_ ?_ ?_ ?_
  · rw [findC_setTextP_ne pol "general" "trigger_other" [x] v (by decide)]
    exact ho
  · intro s h1 h2 h3 h4 h5
    have hsx : s ≠ x := by
      rcases hx with hx | hx <;> rw [hx] <;> assumption
    exact findC_setTextP_ne g x s [] v hsx
  · rcases hx with hx | hx <;> subst hx
    · rw [findC_setTextP_self g "enabled" [] v en henEq]
      rfl
    · rw [findC_setTextP_ne g "frequency" "enabled" [] v (by decide), henEq]
      rfl
  · rcases hx with hx | hx <;> subst hx
    · rw [findC_setTextP_ne g "enabled" "frequency" [] v (by decide), hfrEq]
      rfl
    · rw [findC_setTextP_self g "frequency" [] v fr hfrEq]
      rfl
  · rcases hx with hx | hx <;> subst hx <;>
      rw [findC_setTextP_ne g _ "category" [] v (by decide), hcatEq] <;> rfl

theorem PolicyShape_appendSite (pol : XmlNode) (h : PolicyShape pol) :
    PolicyShape (pol.appendChildP ["general"] "site" none) := by
  obtain ⟨ho, g, hg, hen, hfr, ⟨cat, hcatEq⟩, hrest⟩ := h
  obtain ⟨en, henEq⟩ := Option.isSome_iff_exists.mp hen
  obtain ⟨fr, hfrEq⟩ := Option.isSome_iff_exists.mp hfr
  refine PolicyShape_transfer pol _ g (g.appendChildP [] "site" none)
    ⟨ho, g, hg, hen, hfr, ⟨cat, hcatEq⟩, hrest⟩ hg
    (findC_appendChildP_self pol "general" [] "site" none g hg) ?_ ?_ ?_ ?_ ?_
  · rw [findC_appendChildP_ne pol "general" "trigger_other" [] "site" none (by decide)]
    exact ho
  · intro s h1 h2 h3 h4 h5
    cases g with
    | mk gt gx gc => exact findC_append_child_ne gt gx gc "site" s none h2
  · cases g with
    | mk gt gx gc =>
      rw [show ((XmlNode.mk gt gx gc).appendChildP [] "site" none).findC "enabled" = some en from
        findC_append_child_of_some gt gx gc _ en "enabled" henEq]
      rfl
  · cases g with
    | mk gt gx gc =>
      rw [show ((XmlNode.mk gt gx gc).appendChildP [] "site" none).findC "frequency" = some fr from
        findC_append_child_of_some gt gx gc _ fr "frequency" hfrEq]
      rfl
  · cases g with
    | mk gt gx gc =>
      rw [show ((XmlNode.mk gt gx gc).appendChildP [] "site" none).findC "category" = some cat from
        findC_append_child_of_some gt gx gc _ cat "category" hcatEq]
      rfl

theorem PolicyShape_writebackGeneral (pol g : XmlNode) (s0 : String)
    (h : PolicyShape pol) (hg : pol.findC "general" = some g) :
    PolicyShape (pol.modifyP ["general"] (fun _ => (ensure_xml_str g "name" (some s0)).2)) := by
  have hgt : g.tag = "general" := findC_tag_of_find pol g "general" hg
  have hrt : ∀ c : XmlNode, c.tag = "general" →
      ((fun _ : XmlNode => (ensure_xml_str g "name" (some s0)).2) c).tag = "general" :=
    fun _ _ => (ensure_xml_str_tag g "name" (some s0)).trans hgt
  obtain ⟨ho, g0, hg0, hen, hfr, ⟨cat, hcatEq⟩, hrest⟩ := h
  have hgg : g0 = g := by
    rw [hg] at hg0
    injection hg0 with hh
    exact hh.symm
  rw [hgg] at hen hfr hcatEq hrest
  refine PolicyShape_transfer pol _ g (ensure_xml_str g "name" (some s0)).2
    ⟨ho, g, hg, hen, hfr, ⟨cat, hcatEq⟩, hrest⟩ hg
    (findC_modifyP_one_self pol g "general" _ hg hrt) ?_ ?_ ?_ ?_ ?_
  · rw [findC_modifyP_one_ne pol "general" "trigger_other" _ (by decide) hrt]
    exact ho
  · intro s h1 h2 h3 h4 h5
    exact ensure_xml_str_findC_ne g "name" (some s0) s h1
  · rw [ensure_xml_str_findC_ne g "name" (some s0) "enabled" (by decide)]
    exact hen
  · rw [ensure_xml_str_findC_ne g "name" (some s0) "frequency" (by decide)]
    exact hfr
  · rw [ensure_xml_str_findC_ne g "name" (some s0) "category" (by decide), hcatEq]
    rfl

theorem PolicyShape_writebackCategory (pol g cat : XmlNode) (c0 : String)
    (h : PolicyShape pol) (hg : pol.findC "general" = some g)
    (hcat : g.findC "category" = some cat) :
    PolicyShape (pol.modifyP ["general", "category"]
      (fun _ => (ensure_xml_str cat "name" (some c0)).2)) := by
  have hct : cat.tag = "category" := findC_tag_of_find g cat "category" hcat
  have hrt : ∀ c : XmlNode, c.tag = "category" →
      ((fun _ : XmlNode => (ensure_xml_str cat "name" (some c0)).2) c).tag = "category" :=
    fun _ _ => (ensure_xml_str_tag cat "name" (some c0)).trans hct
  obtain ⟨ho, g0, hg0, hen, hfr, hcatE, hrest⟩ := h
  have hgg : g0 = g := by
    rw [hg] at hg0
    injection hg0 with hh
    exact hh.symm
  rw [hgg] at hen hfr hcatE hrest
  refine PolicyShape_transfer pol _ g
    (g.modifyP ["category"] (fun _ => (ensure_xml_str cat "name" (some c0)).2))
    ⟨ho, g, hg, hen, hfr, hcatE, hrest⟩ hg
    (findC_modifyP_two_self pol g "general" "category" _ hg) ?_ ?_ ?_ ?_ ?_
  · rw [findC_modifyP_two_ne pol "general" "category" "trigger_other" _ (by decide)]
    exact ho
  · intro s h1 h2 h3 h4 h5
    exact findC_modifyP_one_ne g "category" s _ h5 hrt
  · rw [findC_modifyP_one_ne g "category" "enabled" _ (by decide) hrt]
    exact hen
  · rw [findC_modifyP_one_ne g "category" "frequency" _ (by decide) hrt]
    exact hfr
  · rw [findC_modifyP_one_self g cat "category" _ hcat hrt]
    rfl

theorem policyBasics_ok (pol : XmlNode) (enabled : Bool) (frequency : String) (chO chN : PyDict)
    (h : PolicyShape pol) :
    ∃ pol1 chO1 chN1, policyBasics pol enabled frequency chO chN = .ok (pol1, chO1, chN1)
      ∧ PolicyShape pol1 := by
  have hcopy := h
  obtain ⟨ho, g, hg, hen, hfr, hcatE, hrest⟩ := h
  obtain ⟨en, henEq⟩ := Option.isSome_iff_exists.mp hen
  have ha1 : pol.attr "general" = .ok g := by
    unfold XmlNode.attr
    rw [hg]
  have ha2 : g.attr "enabled" = .ok en := by
    unfold XmlNode.attr
    rw [henEq]
  unfold policyBasics
  simp only [ha1, ha2, bind, Except.bind, pure, Except.pure]
  by_cases hb : enabled ≠ (en.text == some "true")
  · rw [if_pos hb]
    have hshape1 : PolicyShape
        (pol.setTextP ["general", "enabled"] (some (pyStr (.pbool enabled)))) :=
      PolicyShape_setText pol "enabled" _ hcopy (Or.inl rfl)
    have hg1 : (pol.setTextP ["general", "enabled"]
          (some (pyStr (.pbool enabled)))).findC "general" =
        some (g.setTextP ["enabled"] (some (pyStr (.pbool enabled)))) :=
      findC_setTextP_self pol "general" ["enabled"] _ g hg
    obtain ⟨fr, hfrEq⟩ := Option.isSome_iff_exists.mp hfr
    have hfr1 : (g.setTextP ["enabled"] (some (pyStr (.pbool enabled)))).findC "frequency" =
        some fr := by
      rw [findC_setTextP_ne g "enabled" "frequency" [] _ (by decide)]
      exact hfrEq
    have ha3 : (pol.setTextP ["general", "enabled"]
        (some (pyStr (.pbool enabled)))).attr "general" =
        .ok (g.setTextP ["enabled"] (some (pyStr (.pbool enabled)))) := by
      unfold XmlNode.attr
      rw [hg1]
    have ha4 : (g.setTextP ["enabled"] (some (pyStr (.pbool enabled)))).attr "frequency" =
        .ok fr := by
      unfold XmlNode.attr
      rw [hfr1]
    simp only [ha3, ha4, bind, Except.bind, pure, Except.pure]
    by_cases hb2 : some frequency ≠ fr.text
    · rw [if_pos hb2]
      exact ⟨_, _, _, rfl,
        PolicyShape_setText _ "frequency" (some frequency) hshape1 (Or.inr rfl)⟩
    · rw [if_neg hb2]
      exact ⟨_, _, _, rfl, hshape1⟩
  · rw [if_neg hb]
    obtain ⟨fr, hfrEq⟩ := Option.isSome_iff_exists.mp hfr
    have ha4 : g.attr "frequency" = .ok fr := by
      unfold XmlNode.attr
      rw [hfrEq]
    simp only [ha1, ha4, bind, Except.bind, pure, Except.pure]
    by_cases hb2 : some frequency ≠ fr.text
    · rw [if_pos hb2]
      exact ⟨_, _, _, rfl,
        PolicyShape_setText _ "frequency" (some frequency) hcopy (Or.inr rfl)⟩
    · rw [if_neg hb2]
      exact ⟨_, _, _, rfl, hcopy⟩

theorem policySite_ok (pol : XmlNode) (site : Option String) (chO chN : PyDict)
    (h : PolicyShape pol) :
    ∃ pol2 chO2 chN2, policySite pol site chO chN = .ok (pol2, chO2, chN2)
      ∧ PolicyShape pol2 := by
  cases site with
  | none => exact ⟨pol, chO, chN, rfl, h⟩
  | some s =>
    have hcopy := h
    obtain ⟨ho, g, hg, hen, hfr, hcatE, hrest⟩ := h
    have ha1 : pol.attr "general" = .ok g := by
      unfold XmlNode.attr
      rw [hg]
    unfold policySite
    dsimp only
    by_cases hsite : (pol.findP ["general", "site"]).isNone = true
    · rw [if_pos hsite]
      have hshape1 : PolicyShape (pol.appendChildP ["general"] "site" none) :=
        PolicyShape_appendSite pol hcopy
      have hg1 : (pol.appendChildP ["general"] "site" none).findC "general" =
          some (g.appendChildP [] "site" none) :=
        findC_appendChildP_self pol "general" [] "site" none g hg
      have ha2 : (pol.appendChildP ["general"] "site" none).attr "general" =
          .ok (g.appendChildP [] "site" none) := by
        unfold XmlNode.attr
        rw [hg1]
      simp only [ha1, ha2, bind, Except.bind, pure, Except.pure]
      by_cases he : (ensure_xml_str (g.appendChildP [] "site" none) "name" (some s)).1.2 ≠ none
      · rw [if_pos he]
        exact ⟨_, _, _, rfl,
          PolicyShape_writebackGeneral _ _ s hshape1 hg1⟩
      · rw [if_neg he]
        exact ⟨_, _, _, rfl,
          PolicyShape_writebackGeneral _ _ s hshape1 hg1⟩
    · rw [if_neg hsite]
      simp only [ha1, bind, Except.bind, pure, Except.pure]
      by_cases he : (ensure_xml_str g "name" (some s)).1.2 ≠ none
      · rw [if_pos he]
        exact ⟨_, _, _, rfl, PolicyShape_writebackGeneral pol g s hcopy hg⟩
      · rw [if_neg he]
        exact ⟨_, _, _, rfl, PolicyShape_writebackGeneral pol g s hcopy hg⟩

theorem policyCategory_ok (pol : XmlNode) (category : Option String) (chO chN : PyDict)
    (h : PolicyShape pol) :
    ∃ pol3 chO3 chN3, policyCategory pol category chO chN = .ok (pol3, chO3, chN3)
      ∧ PolicyShape pol3 := by
  cases category with
  | none => exact ⟨pol, chO, chN, rfl, h⟩
  | some c0 =>
    have hcopy := h
    obtain ⟨ho, g, hg, hen, hfr, ⟨cat, hcatEq⟩, hrest⟩ := h
    have ha1 : pol.attr "general" = .ok g := by
      unfold XmlNode.attr
      rw [hg]
    have ha2 : g.attr "category" = .ok cat := by
      unfold XmlNode.attr
      rw [hcatEq]
    unfold policyCategory
    dsimp only
    simp only [ha1, ha2, bind, Except.bind, pure, Except.pure]
    by_cases he : (ensure_xml_str cat "name" (some c0)).1.2 ≠ none
    · rw [if_pos he]
      exact ⟨_, _, _, rfl, PolicyShape_writebackCategory pol g cat c0 hcopy hg hcatEq⟩
    · rw [if_neg he]
      exact ⟨_, _, _, rfl, PolicyShape_writebackCategory pol g cat c0 hcopy hg hcatEq⟩

/-- C8: when the locator's fetch of the named policy signals not-found
(`jss.GetError`), the `policy` state does not raise: it constructs the blank
representation and proceeds through reconciliation to an unconditional commit
(create-then-commit), returning success, for every valid frequency and any
combination of enabled flag, site, category and trigger list (scope and
policy steps left unmanaged). -/
theorem policy_not_found_creates_and_commits
    (name frequency : String) (enabled : Bool) (site category : Option String)
    (triggers : Option (List String)) (server : Server) (optsTest : Bool)
    (hfreq : frequency ∈ policy_frequencies)
    (hnf : server.policies name = none)
    (hpost : server.postErr "policy" name = none) :
    (policy name frequency enabled site category triggers none none server optsTest).map
      (fun o => (o.ret.result, o.trace)) =
      .ok (some true, [.fetch "policy" name, .save "policy" name]) := by
  unfold policy
  have hnot : ¬ frequency ∉ policy_frequencies := not_not_intro hfreq
  rw [if_neg hnot, hnf]
  dsimp only
  obtain ⟨p1, c1, c1', hB, hS1⟩ :=
    policyBasics_ok (newBlankPolicy name) enabled frequency [] [] (newBlankPolicy_shape name)
  simp only [hB, bind, Except.bind]
  obtain ⟨p2, c2, c2', hS, hS2⟩ := policySite_ok p1 site c1 c1' hS1
  simp only [hS, bind, Except.bind]
  obtain ⟨p3, c3, c3', hC, hS3⟩ := policyCategory_ok p2 category c2 c2' hS2
  simp only [hC, bind, Except.bind]
  obtain ⟨p4, c4, c4', hT⟩ := policyTriggers_ok p3 triggers c3 c3' hS3
  simp only [hT, bind, Except.bind]
  simp only [policyScope, policyPackages, bind, Except.bind, pure, Except.pure]
  rw [hpost]
  rfl

/-- Witness for C8: a concrete not-found run with a trigger list, a site and a
category, ending in a successful commit. -/
theorem policy_not_found_creates_and_commits_witness :
    "Ongoing" ∈ policy_frequencies ∧
    (policy "NewPolicy" "Ongoing" true (some "HQ") (some "Maintenance")
        (some ["checkin", "custom1"]) none none (demoServer none none none none) false).map
      (fun o => (o.ret.result, o.trace)) =
      .ok (some true, [.fetch "policy" "NewPolicy", .save "policy" "NewPolicy"]) :=
  ⟨by decide,
    policy_not_found_creates_and_commits "NewPolicy" "Ongoing" true (some "HQ")
      (some "Maintenance") (some ["checkin", "custom1"]) (demoServer none none none none) false
      (by decide) (by rfl) (by rfl)⟩
